import Mathlib

/-!
Verification of the interactive color-picking session in `src/location.rs`
(`wait_for_location` and its helpers).  The Rust code is shallowly embedded:

* pixel buffers (`Vec<ARGB>`, `&[ARGB]`) become `List ARGB`;
* machine integers become `Nat` / `Int` (widths/heights are `u16` in the
  source, so theorems that depend on the `u16` range carry an explicit
  `< 65536` hypothesis; pointer coordinates are `i16`, modelled as `Int`);
* a Rust operation that can panic (slice indexing out of bounds) is modelled
  as returning `Option`, with `none` standing for the panic;
* the X11 connection is modelled as an environment (`Conn`) recording the
  replies the server would give, and every protocol request issued by the
  session is recorded in an `Action` trace.
-/

namespace XColor

/-- Modelled from the spec: the pixel type of `crate::color` (not under
`src/`), "one 32-bit packed value per pixel, alpha+RGB channels".  The
numeric content is irrelevant here; only equality and the fully transparent
sentinel are used. -/
abbrev ARGB := Nat

/-- Modelled from the spec: the fully transparent sentinel pixel
(`ARGB::TRANSPARENT`, all channels zero). -/
def ARGB.TRANSPARENT : ARGB := 0

/-- Modelled from the spec: `EnsureOdd` from `crate::util` (not under
`src/`): "odd input is unchanged; even input becomes the next odd value
(e.g., 100 → 101)" — `Int` version, used on `isize` in
`get_rect_from_cache`. -/
def ensure_odd_int (n : Int) : Int := if n % 2 = 0 then n + 1 else n

/-- Modelled from the spec: `EnsureOdd` on `u32`, used on `preview_width`
in `wait_for_location`. -/
def ensure_odd_nat (n : Nat) : Nat := if n % 2 = 0 then n + 1 else n

/-- The fast path of `get_rect_from_cache` (location.rs lines 169-176):
row-by-row contiguous copies `cache[start..start + size]` appended to an
initially empty vector.  A slice whose bounds exceed the cache (a Rust
panic) yields `none`; a negative `start` would wrap under `as usize` to a
huge index and also panic, hence also `none`. -/
def fast_step (cache : List ARGB) (root_width x y size : Int)
    (acc : Option (List ARGB)) (r : Nat) : Option (List ARGB) :=
  acc.bind (fun a =>
    let start : Int := (y + (r : Int)) * root_width + x
    if 0 ≤ start ∧ start.toNat + size.toNat ≤ cache.length then
      some (a ++ (cache.drop start.toNat).take size.toNat)
    else
      none)

def fastRows (cache : List ARGB) (root_width x y size : Int) :
    Option (List ARGB) :=
  (List.range size.toNat).foldl (fast_step cache root_width x y size) (some [])

/-- One write of the slow path of `get_rect_from_cache` (location.rs lines
182-184): `pixels[pixels_idx] = cache[cache_idx]`.  Either index falling
outside its buffer (a Rust panic, including the huge wrapped value produced
by `as usize` on a negative index) yields `none`. -/
def slow_write (cache : List ARGB) (root_width size x y x_offset y_offset : Int)
    (a : List ARGB) (cx cy : Nat) : Option (List ARGB) :=
  let cache_idx : Int := ((cy : Int) + y) * root_width + ((cx : Int) + x)
  let pixels_idx : Int := ((cy : Int) + y_offset) * size + ((cx : Int) + x_offset)
  if 0 ≤ cache_idx ∧ cache_idx.toNat < cache.length ∧
      0 ≤ pixels_idx ∧ pixels_idx.toNat < a.length then
    some (a.set pixels_idx.toNat (cache.getD cache_idx.toNat ARGB.TRANSPARENT))
  else
    none

/-- The slow path of `get_rect_from_cache` (location.rs lines 178-187): a
`size*size` buffer pre-filled with `ARGB::TRANSPARENT`, then the doubly
nested `for cx in 0..size_x { for cy in 0..size_y { ... } }` copy.  Empty
ranges (negative `size_x`/`size_y`) perform no writes, as in Rust. -/
def slow_step (cache : List ARGB) (root_width size x y x_offset y_offset : Int)
    (cx : Nat) (acc : Option (List ARGB)) (cy : Nat) : Option (List ARGB) :=
  acc.bind (fun a =>
    slow_write cache root_width size x y x_offset y_offset a cx cy)

def slow_col (cache : List ARGB) (root_width size x y x_offset y_offset size_y : Int)
    (acc : Option (List ARGB)) (cx : Nat) : Option (List ARGB) :=
  (List.range size_y.toNat).foldl
    (slow_step cache root_width size x y x_offset y_offset cx) acc

def slowFill (cache : List ARGB)
    (root_width size x y x_offset y_offset size_x size_y : Int) :
    Option (List ARGB) :=
  (List.range size_x.toNat).foldl
    (slow_col cache root_width size x y x_offset y_offset size_y)
    (some (List.replicate (size * size).toNat ARGB.TRANSPARENT))

/-- The snapshot-space square side computed by `get_rect_from_cache`
(location.rs line 149): `((preview_width / scale) as isize).ensure_odd()`. -/
def snapshot_square_side (preview_width scale : Nat) : Int :=
  ensure_odd_int ((preview_width / scale : Nat) : Int)

/-- Translation of `get_rect_from_cache` (location.rs lines 138-188).
Extracts a square region around a point from the cached full-screen
screenshot, clamping at the screen edges.  The returned side is the
`size as u16` cast of the source, hence the `% 65536`.  `none` models a
panic of the Rust function. -/
def get_rect_from_cache (cache : List ARGB) (cache_width cache_height : Nat)
    (pointer : Int × Int) (preview_width scale : Nat) :
    Option (Nat × List ARGB) :=
  let root_width : Int := (cache_width : Int)
  let root_height : Int := (cache_height : Int)
  let size : Int := snapshot_square_side preview_width scale
  let x1 : Int := pointer.1 - size / 2
  let y1 : Int := pointer.2 - size / 2
  let x_offset : Int := if x1 < 0 then -x1 else 0
  let y_offset : Int := if y1 < 0 then -y1 else 0
  let x : Int := x1 + x_offset
  let y : Int := y1 + y_offset
  let size_x : Int := if x + size > root_width then root_width - x else size - x_offset
  let size_y : Int := if y + size > root_height then root_height - y else size - y_offset
  if size_x = size ∧ size_y = size then
    (fastRows cache root_width x y size).map (fun px => (size.toNat % 65536, px))
  else
    (slowFill cache root_width size x y x_offset y_offset size_x size_y).map
      (fun px => (size.toNat % 65536, px))

/-- Spec-side description of the extracted square: position `(i, j)` of the
buffer holds the snapshot pixel at `(pointer - S/2 + (i, j))` when that
coordinate is on the screen, and the fully transparent sentinel otherwise
("copy only the in-bounds sub-rectangle into its correct offset position,
leaving the rest transparent"). -/
def rect_pixel_spec (cache : List ARGB) (cache_width cache_height : Nat)
    (px py S : Int) (i j : Nat) : ARGB :=
  let gx : Int := px - S / 2 + (i : Int)
  let gy : Int := py - S / 2 + (j : Int)
  if 0 ≤ gx ∧ gx < (cache_width : Int) ∧ 0 ≤ gy ∧ gy < (cache_height : Int) then
    cache.getD (gy * (cache_width : Int) + gx).toNat ARGB.TRANSPARENT
  else
    ARGB.TRANSPARENT

/-- The pixel replication factor computed inside `render_magnifier_from_cache`
(location.rs lines 210-215): the integer ratio of the destination side to the
source side, then `+1` if even, `+2` if odd. -/
def magnifier_pixel_size (dest_width src_width : Nat) : Nat :=
  let pixel_size := dest_width / src_width
  if pixel_size % 2 = 0 then pixel_size + 1 else pixel_size + 2

/-- Translation of `render_magnifier_from_cache` (location.rs lines 192-221).
The external glass-drawing routine `draw_magnifying_glass` (crate::draw, out
of scope per the spec) is a parameter: it receives the zero-filled
destination buffer of length `preview_width * preview_width`, the extracted
source square with its side, and the pixel replication factor, and returns
the written destination buffer.  `none` models a panic inside
`get_rect_from_cache`. -/
def render_magnifier_from_cache
    (draw : List Nat → List ARGB → Nat → Nat → List Nat)
    (cache : List ARGB) (cache_width cache_height : Nat)
    (point : Int × Int) (preview_width scale : Nat) : Option (List Nat) :=
  (get_rect_from_cache cache cache_width cache_height point preview_width
      scale).map
    (fun ws =>
      let buffer := List.replicate (preview_width * preview_width) (0 : Nat)
      let pixel_size := magnifier_pixel_size preview_width ws.1
      draw buffer ws.2 ws.1 pixel_size)

/-- `xproto::Visualtype`: only the fields read by `find_argb_visual`. -/
structure VisualType where
  visual_class : Nat
  visual_id : Nat

/-- `xproto::Depth`: only the fields read by `find_argb_visual`. -/
structure DepthInfo where
  depth : Nat
  visuals : List VisualType

/-- `xproto::Screen`: only the fields read by `wait_for_location`.  Widths
and heights are `u16` in the source. -/
structure Screen where
  root : Nat
  width_in_pixels : Nat
  height_in_pixels : Nat
  allowed_depths : List DepthInfo

/-- Left mouse button (location.rs line 16). -/
def SELECTION_BUTTON : Nat := 1

/-- `xproto::GRAB_STATUS_SUCCESS`. -/
def GRAB_STATUS_SUCCESS : Nat := 0

/-- `xproto::VISUAL_CLASS_TRUE_COLOR`. -/
def VISUAL_CLASS_TRUE_COLOR : Nat := 4

/-- Translation of `find_argb_visual` (location.rs lines 123-134): the first
true-color visual among the depth-32 entries, if any. -/
def find_argb_visual (screen : Screen) : Option Nat :=
  screen.allowed_depths.findSome? (fun depth =>
    if depth.depth = 32 then
      depth.visuals.findSome? (fun visual =>
        if visual.visual_class = VISUAL_CLASS_TRUE_COLOR then
          some visual.visual_id
        else none)
    else none)

/-- The events delivered by `Connection::wait_for_event`, decoded by the
`response_type` dispatch of the loop (location.rs lines 344-413).
`otherEvent` covers every response type the loop ignores. -/
inductive XEvent where
  | buttonPress (detail : Nat) (root_x root_y : Int)
  | keyPress (detail : Nat)
  | motionNotify (root_x root_y : Int)
  | otherEvent
deriving DecidableEq

/-- The protocol requests `wait_for_location` and its helpers can issue, in
the order they appear in the trace.  Payloads irrelevant to the verified
properties (resource ids, geometry, image bytes) are elided. -/
inductive Action where
  | createPixmap
  | createGC
  | polyFillRectangle
  | createCursor
  | freeGC
  | freePixmap
  | grabPointer
  | getImage
  | createColormap
  | queryPointer
  | createWindow
  | mapWindow
  | putImage
  | configureWindow
  | grabKeyboard
  | unmapWindow
  | destroyWindow
  | freeColormap
  | ungrabKeyboard
  | ungrabPointer
  | freeCursor
  | flush
deriving DecidableEq

/-- The connection environment: the replies the X server gives to each
synchronous request of one `wait_for_location` run, and the event stream.
`none` in a reply field models a protocol failure of that request
(`get_reply()` returning `Err`); a keycode of `0` models
`XKeysymToKeycode` failing to resolve the keysym. -/
structure Conn where
  escape_keycode_raw : Nat
  return_keycode_raw : Nat
  grab_pointer_reply : Option Nat
  grab_keyboard_reply : Option Nat
  window_rect_reply : Option (List ARGB)
  initial_pointer_reply : Option (Int × Int)
  loop_pointer_reply : Option (Int × Int)
  events : List XEvent

/-- The observable result of a run: `ok` for a normal return
(`Ok(Some color)` / `Ok(None)`), `err` for an `Err` propagated by `?`, and
`panic` for an out-of-bounds buffer access aborting the run. -/
inductive Outcome where
  | ok (result : Option ARGB)
  | err (msg : String)
  | panic
deriving DecidableEq

/-- The requests issued by `create_blank_cursor` (location.rs lines 21-42);
it always succeeds. -/
def create_blank_cursor_actions : List Action :=
  [.createPixmap, .createGC, .polyFillRectangle, .createCursor, .freeGC,
   .freePixmap, .flush]

/-- Translation of `escape_keycode` (location.rs lines 100-109). -/
def escape_keycode (conn : Conn) : Except String Nat :=
  if conn.escape_keycode_raw = 0 then
    .error "Could not resolve the Escape keycode"
  else
    .ok conn.escape_keycode_raw

/-- Translation of `return_keycode` (location.rs lines 111-120). -/
def return_keycode (conn : Conn) : Except String Nat :=
  if conn.return_keycode_raw = 0 then
    .error "Could not resolve the Return keycode"
  else
    .ok conn.return_keycode_raw

/-- Translation of `grab_pointer` (location.rs lines 48-67): a single
attempt; a protocol failure or a non-success status is fatal. -/
def grab_pointer (conn : Conn) : Except String Unit :=
  match conn.grab_pointer_reply with
  | none => .error "protocol request failed"
  | some status =>
      if status ≠ GRAB_STATUS_SUCCESS then .error "Could not grab pointer"
      else .ok ()

/-- Translation of `grab_keyboard_with_retry` (location.rs lines 70-98).
The retry loop's schedule depends on real time, so the loop is modelled by
its eventual outcome within the retry window: the status the server settles
on, or `none` for a protocol failure. -/
def grab_keyboard_with_retry (conn : Conn) : Except String Unit :=
  match conn.grab_keyboard_reply with
  | none => .error "protocol request failed"
  | some status =>
      if status = GRAB_STATUS_SUCCESS then .ok ()
      else
        .error "Could not grab keyboard for escape detection after repeated attempts"

/-- The per-axis clamp used in the event loop (location.rs lines 350-353
and 365-368): `(v.max(0) as usize).min(dimension as usize - 1)`.  Faithful
for `dimension ≥ 1`, as guaranteed by a real screen. -/
def clamp_coord (v : Int) (dimension : Nat) : Nat :=
  min (max v 0).toNat (dimension - 1)

/-- The teardown sequence (location.rs lines 421-428). -/
def cleanup_actions : List Action :=
  [.unmapWindow, .destroyWindow, .freeGC, .freeColormap, .ungrabKeyboard,
   .ungrabPointer, .freeCursor, .flush]

/-- Translation of the event loop (location.rs lines 341-418), one step per
event of the stream.  The first component is the loop's outcome, the second
the trace of protocol requests issued inside the loop.  An exhausted stream
models `wait_for_event` returning no event (the `else break None` arm). -/
def session_loop (draw : List Nat → List ARGB → Nat → Nat → List Nat)
    (cache : List ARGB) (root_width root_height : Nat)
    (escape_kc return_kc : Nat) (loop_pointer_reply : Option (Int × Int))
    (preview_width scale : Nat) : List XEvent → Outcome × List Action
  | [] => (.ok none, [])
  | event :: rest =>
    match event with
    | .buttonPress detail root_x root_y =>
        if detail = SELECTION_BUTTON then
          let x := clamp_coord root_x root_width
          let y := clamp_coord root_y root_height
          match cache[y * root_width + x]? with
          | some c => (.ok (some c), [])
          | none => (.panic, [])
        else
          session_loop draw cache root_width root_height escape_kc return_kc
            loop_pointer_reply preview_width scale rest
    | .keyPress detail =>
        if detail = escape_kc then (.ok none, [])
        else if detail = return_kc then
          match loop_pointer_reply with
          | none => (.err "protocol request failed", [.queryPointer])
          | some p =>
              let x := clamp_coord p.1 root_width
              let y := clamp_coord p.2 root_height
              match cache[y * root_width + x]? with
              | some c => (.ok (some c), [.queryPointer])
              | none => (.panic, [.queryPointer])
        else
          session_loop draw cache root_width root_height escape_kc return_kc
            loop_pointer_reply preview_width scale rest
    | .motionNotify root_x root_y =>
        match render_magnifier_from_cache draw cache root_width root_height
            (root_x, root_y) preview_width scale with
        | none => (.panic, [])
        | some _ =>
            let r := session_loop draw cache root_width root_height escape_kc
              return_kc loop_pointer_reply preview_width scale rest
            (r.1, .putImage :: .configureWindow :: .flush :: r.2)
    | .otherEvent =>
        session_loop draw cache root_width root_height escape_kc return_kc
          loop_pointer_reply preview_width scale rest

/-- Translation of `wait_for_location` (location.rs lines 229-431) over the
connection environment.  Returns the session outcome together with the full
trace of protocol requests issued by the run.  Note that the `?` on the
confirm-key `query_pointer` (line 364) propagates the error straight out of
the function, past the cleanup block — this is visible here as the `err`
outcome not appending `cleanup_actions`. -/
def wait_for_location (draw : List Nat → List ARGB → Nat → Nat → List Nat)
    (conn : Conn) (screen : Screen) (preview_width scale : Nat) :
    Outcome × List Action :=
  let preview_width := ensure_odd_nat preview_width
  match escape_keycode conn with
  | .error e => (.err e, [])
  | .ok escape_kc =>
  match return_keycode conn with
  | .error e => (.err e, [])
  | .ok return_kc =>
  let acts1 := create_blank_cursor_actions
  match grab_pointer conn with
  | .error e => (.err e, acts1 ++ [.grabPointer])
  | .ok _ =>
  let acts2 := acts1 ++ [.grabPointer]
  let root_width := screen.width_in_pixels
  let root_height := screen.height_in_pixels
  match conn.window_rect_reply with
  | none => (.err "protocol request failed", acts2 ++ [.getImage])
  | some screenshot_cache =>
  let acts3 := acts2 ++ [.getImage]
  match find_argb_visual screen with
  | none => (.err "No 32-bit TrueColor visual found", acts3)
  | some _argb_visual =>
  let acts4 := acts3 ++ [.createColormap]
  match conn.initial_pointer_reply with
  | none => (.err "protocol request failed", acts4 ++ [.queryPointer])
  | some initial_point =>
  let acts5 := acts4 ++
    [.queryPointer, .createWindow, .createGC, .mapWindow, .flush]
  match render_magnifier_from_cache draw screenshot_cache root_width
      root_height initial_point preview_width scale with
  | none => (.panic, acts5)
  | some _pixels =>
  let acts6 := acts5 ++ [.putImage, .configureWindow, .flush]
  match grab_keyboard_with_retry conn with
  | .error e => (.err e, acts6 ++ [.grabKeyboard])
  | .ok _ =>
  let acts7 := acts6 ++ [.grabKeyboard]
  let lr := session_loop draw screenshot_cache root_width root_height
    escape_kc return_kc conn.loop_pointer_reply preview_width scale
    conn.events
  match lr.1 with
  | .ok result => (.ok result, acts7 ++ lr.2 ++ cleanup_actions)
  | out => (out, acts7 ++ lr.2)

/-- The protocol requests of a successful setup phase: everything
`wait_for_location` issues before entering the event loop, in source
order (cursor construction, pointer grab, screen capture, colormap,
pointer query, window + GC creation, map, initial frame upload,
positioning, keyboard grab). -/
def setup_actions : List Action :=
  [.createPixmap, .createGC, .polyFillRectangle, .createCursor, .freeGC,
   .freePixmap, .flush, .grabPointer, .getImage, .createColormap,
   .queryPointer, .createWindow, .createGC, .mapWindow, .flush, .putImage,
   .configureWindow, .flush, .grabKeyboard]

/-- Marks the two requests of interest to the single-capture discipline:
the screen capture and the overlay window creation. -/
def capture_or_create (a : Action) : Bool :=
  a == Action.getImage || a == Action.createWindow

/-- A trivial stand-in for the external glass-drawing routine, used by
concrete witnesses: it returns the destination buffer unchanged. -/
def dummy_draw : List Nat → List ARGB → Nat → Nat → List Nat :=
  fun buffer _src _w _pixel_size => buffer

/-- A probe stand-in for the external glass-drawing routine: it returns the
source square it was handed, exposing what the render pipeline extracted. -/
def probe_draw_src : List Nat → List ARGB → Nat → Nat → List Nat :=
  fun _buffer src _w _pixel_size => src

/-- A probe stand-in for the external glass-drawing routine: it returns the
replication factor it was handed, exposing what the render pipeline
computed. -/
def probe_draw_pixel_size : List Nat → List ARGB → Nat → Nat → List Nat :=
  fun _buffer _src _w pixel_size => [pixel_size]

/-- A concrete 2 × 2 screen with one 32-bit true-color visual, used by
concrete witnesses. -/
def witness_screen : Screen :=
  { root := 0, width_in_pixels := 2, height_in_pixels := 2,
    allowed_depths := [⟨32, [⟨4, 33⟩]⟩] }

/-- A concrete connection whose setup succeeds: keycodes 9 (Escape) and 36
(Return), both grabs granted, a 2 × 2 snapshot `[10, 20, 30, 40]`, pointer
at the origin.  Parameterized by the delivered event stream. -/
def witness_conn (events : List XEvent) : Conn :=
  { escape_keycode_raw := 9, return_keycode_raw := 36,
    grab_pointer_reply := some 0, grab_keyboard_reply := some 0,
    window_rect_reply := some [10, 20, 30, 40],
    initial_pointer_reply := some (0, 0),
    loop_pointer_reply := some (1, 1), events := events }

/-- A concrete connection identical to `witness_conn` except that the
pointer query issued on the confirm key fails, and the only event is a
Return key press. -/
def confirm_query_failure_conn : Conn :=
  { escape_keycode_raw := 9, return_keycode_raw := 36,
    grab_pointer_reply := some 0, grab_keyboard_reply := some 0,
    window_rect_reply := some [10, 20, 30, 40],
    initial_pointer_reply := some (0, 0),
    loop_pointer_reply := none, events := [XEvent.keyPress 36] }

/-! ## General lemmas -/

theorem ensure_odd_int_odd (n : Int) : Odd (ensure_odd_int n) := by
  unfold ensure_odd_int
  rw [Int.odd_iff]
  split <;> omega

theorem ensure_odd_int_pos (n : Int) (h : 0 ≤ n) : 1 ≤ ensure_odd_int n := by
  unfold ensure_odd_int
  split <;> omega

/-- `ensure_odd` on a nonnegative integer agrees with the `Nat` version. -/
theorem ensure_odd_int_ofNat (n : Nat) :
    ensure_odd_int (n : Int) = (ensure_odd_nat n : Int) := by
  unfold ensure_odd_int ensure_odd_nat
  split <;> split <;> omega

theorem snapshot_square_side_pos (pw scale : Nat) :
    1 ≤ snapshot_square_side pw scale :=
  ensure_odd_int_pos _ (Int.natCast_nonneg _)

theorem snapshot_square_side_odd (pw scale : Nat) :
    Odd (snapshot_square_side pw scale) :=
  ensure_odd_int_odd _

/-- Row-major index arithmetic: a row below the row bound and a column
below the row width give an index below the buffer size. -/
theorem rowmajor_lt (width rows r c : Int) (hr0 : 0 ≤ r) (hr : r < rows)
    (hc0 : 0 ≤ c) (hc : c < width) :
    0 ≤ r * width + c ∧ r * width + c < rows * width := by
  have hw : 0 ≤ width := by linarith
  refine ⟨add_nonneg (mul_nonneg hr0 hw) hc0, ?_⟩
  have h1 : r * width + c < r * width + width := by linarith
  have h2 : r * width + width = (r + 1) * width := by ring
  have h3 : (r + 1) * width ≤ rows * width :=
    mul_le_mul_of_nonneg_right (by linarith) hw
  linarith

/-- Row-major indices determine row and column when the columns lie below
the width. -/
theorem rowmajor_inj (width r1 c1 r2 c2 : Int) (hc1 : 0 ≤ c1)
    (hc1w : c1 < width) (hc2 : 0 ≤ c2) (hc2w : c2 < width)
    (h : r1 * width + c1 = r2 * width + c2) : r1 = r2 ∧ c1 = c2 := by
  have hw : 0 < width := by linarith
  have hd : (r1 - r2) * width = c2 - c1 := by ring_nf; linarith
  rcases lt_trichotomy r1 r2 with hlt | heq | hgt
  · exfalso
    have : (r1 - r2) * width ≤ (-1) * width :=
      mul_le_mul_of_nonneg_right (by omega) (by omega)
    linarith
  · exact ⟨heq, by rw [heq] at h; linarith⟩
  · exfalso
    have : (1 : Int) * width ≤ (r1 - r2) * width :=
      mul_le_mul_of_nonneg_right (by omega) (by omega)
    linarith

/-! ## Characterization of the fast path -/

theorem fastRows_aux (cache : List ARGB) (rw x y size : Int)
    (hx : 0 ≤ x) (hy : 0 ≤ y) (hs : 0 ≤ size) (hxs : x + size ≤ rw)
    (hys : (y + size) * rw ≤ (cache.length : Int)) :
    ∀ n : Nat, n ≤ size.toNat →
    ∃ a, (List.range n).foldl (fast_step cache rw x y size) (some []) =
        some a ∧
      a.length = n * size.toNat ∧
      ∀ i j : Nat, i < size.toNat → j < n →
        a[j * size.toNat + i]? =
          cache[((y + (j : Int)) * rw + x + (i : Int)).toNat]? := by
  have hrw : 0 ≤ rw := by linarith
  intro n
  induction n with
  | zero =>
      exact fun _ => ⟨[], rfl, by simp,
        fun i j _ hj => absurd hj (Nat.not_lt_zero j)⟩
  | succ n ih =>
      intro hn
      obtain ⟨a, ha, hlen, hchar⟩ := ih (Nat.le_of_succ_le hn)
      have hyn : (0 : Int) ≤ y + (n : Int) := by positivity
      have hstart0 : (0 : Int) ≤ (y + (n : Int)) * rw + x :=
        add_nonneg (mul_nonneg hyn hrw) hx
      have hbound : (y + (n : Int)) * rw + x + size ≤ (cache.length : Int) := by
        have h1 : (y + (n : Int)) * rw + x + size ≤ (y + (n : Int)) * rw + rw := by
          linarith
        have h2 : (y + (n : Int)) * rw + rw = (y + (n : Int) + 1) * rw := by ring
        have h3 : (y + (n : Int) + 1) * rw ≤ (y + size) * rw :=
          mul_le_mul_of_nonneg_right (by omega) hrw
        linarith
      have hguard : 0 ≤ (y + (n : Int)) * rw + x ∧
          ((y + (n : Int)) * rw + x).toNat + size.toNat ≤ cache.length :=
        ⟨hstart0, by omega⟩
      have hslice :
          ((cache.drop ((y + (n : Int)) * rw + x).toNat).take size.toNat).length
            = size.toNat := by
        rw [List.length_take, List.length_drop]
        omega
      refine ⟨a ++ (cache.drop ((y + (n : Int)) * rw + x).toNat).take size.toNat,
        ?_, ?_, ?_⟩
      · rw [List.range_succ, List.foldl_append, ha]
        simp only [List.foldl_cons, List.foldl_nil, fast_step, Option.some_bind]
        rw [if_pos hguard]
      · rw [List.length_append, hlen, hslice]
        ring
      · intro i j hi hj
        rcases Nat.lt_succ_iff_lt_or_eq.mp hj with hj' | hj'
        · have hexp : (j + 1) * size.toNat = j * size.toNat + size.toNat := by
            ring
          have hmul : (j + 1) * size.toNat ≤ n * size.toNat :=
            Nat.mul_le_mul_right _ hj'
          have hidx : j * size.toNat + i < a.length := by
            rw [hlen]; omega
          rw [List.getElem?_append, if_pos hidx]
          exact hchar i j hi hj'
        · subst hj'
          have hge : a.length ≤ j * size.toNat + i := by rw [hlen]; omega
          rw [List.getElem?_append_right hge, hlen]
          have hsub : j * size.toNat + i - j * size.toNat = i := by omega
          rw [hsub, List.getElem?_take, if_pos hi, List.getElem?_drop]
          have hix : ((y + (j : Int)) * rw + x).toNat + i =
              ((y + (j : Int)) * rw + x + (i : Int)).toNat := by omega
          rw [hix]

/-- The fast path (all slices in bounds) succeeds and copies the
rectangle `[x, x + size) × [y, y + size)` of the cache row-major. -/
theorem fastRows_spec (cache : List ARGB) (rw x y size : Int)
    (hx : 0 ≤ x) (hy : 0 ≤ y) (hs : 0 ≤ size) (hxs : x + size ≤ rw)
    (hys : (y + size) * rw ≤ (cache.length : Int)) :
    ∃ a, fastRows cache rw x y size = some a ∧
      a.length = size.toNat * size.toNat ∧
      ∀ i j : Nat, i < size.toNat → j < size.toNat →
        a[j * size.toNat + i]? =
          cache[((y + (j : Int)) * rw + x + (i : Int)).toNat]? :=
  fastRows_aux cache rw x y size hx hy hs hxs hys size.toNat le_rfl

/-! ## Characterization of the slow (edge-padding) path -/

theorem slow_col_aux (cache : List ARGB) (rw size x y xo yo : Int) (cx : Nat)
    (hS : 1 ≤ size) (a : List ARGB) :
    ∀ m : Nat,
    (∀ cy : Nat, cy < m →
      0 ≤ ((cy : Int) + y) * rw + ((cx : Int) + x) ∧
      (((cy : Int) + y) * rw + ((cx : Int) + x)).toNat < cache.length ∧
      0 ≤ ((cy : Int) + yo) * size + ((cx : Int) + xo) ∧
      (((cy : Int) + yo) * size + ((cx : Int) + xo)).toNat < a.length) →
    ∃ a2, (List.range m).foldl (slow_step cache rw size x y xo yo cx)
        (some a) = some a2 ∧
      a2.length = a.length ∧
      (∀ p : Nat,
        (∀ cy : Nat, cy < m →
          (((cy : Int) + yo) * size + ((cx : Int) + xo)).toNat ≠ p) →
        a2[p]? = a[p]?) ∧
      (∀ cy : Nat, cy < m →
        a2[(((cy : Int) + yo) * size + ((cx : Int) + xo)).toNat]? =
          some (cache.getD
            ((((cy : Int) + y) * rw + ((cx : Int) + x))).toNat
            ARGB.TRANSPARENT)) := by
  intro m
  induction m with
  | zero =>
      exact fun _ => ⟨a, rfl, rfl, fun p _ => rfl,
        fun cy hcy => absurd hcy (Nat.not_lt_zero cy)⟩
  | succ m ih =>
      intro hvalid
      obtain ⟨a2, ha2, hlen, huntouch, hwrit⟩ :=
        ih (fun cy hcy => hvalid cy (Nat.lt_succ_of_lt hcy))
      have hv := hvalid m (Nat.lt_succ_self m)
      have hguard : 0 ≤ ((m : Int) + y) * rw + ((cx : Int) + x) ∧
          ((((m : Int) + y) * rw + ((cx : Int) + x))).toNat < cache.length ∧
          0 ≤ ((m : Int) + yo) * size + ((cx : Int) + xo) ∧
          ((((m : Int) + yo) * size + ((cx : Int) + xo))).toNat < a2.length := by
        refine ⟨hv.1, hv.2.1, hv.2.2.1, ?_⟩
        rw [hlen]
        exact hv.2.2.2
      refine ⟨a2.set ((((m : Int) + yo) * size + ((cx : Int) + xo))).toNat
        (cache.getD ((((m : Int) + y) * rw + ((cx : Int) + x))).toNat
          ARGB.TRANSPARENT), ?_, ?_, ?_, ?_⟩
      · rw [List.range_succ, List.foldl_append, ha2]
        simp only [List.foldl_cons, List.foldl_nil, slow_step, slow_write,
          Option.some_bind]
        rw [if_pos hguard]
      · rw [List.length_set]
        exact hlen
      · intro p hp
        rw [List.getElem?_set_ne (hp m (Nat.lt_succ_self m))]
        exact huntouch p (fun cy hcy => hp cy (Nat.lt_succ_of_lt hcy))
      · intro cy hcy
        rcases Nat.lt_succ_iff_lt_or_eq.mp hcy with hcy' | hcy'
        · have hvc := hvalid cy (Nat.lt_succ_of_lt hcy')
          have hrowne : ((cy : Int) + yo) * size + ((cx : Int) + xo) ≠
              ((m : Int) + yo) * size + ((cx : Int) + xo) := by
            intro heq
            have h2 : ((cy : Int) + yo) * size = ((m : Int) + yo) * size := by
              linarith
            have h3 : ((cy : Int) + yo) = ((m : Int) + yo) :=
              mul_right_cancel₀ (by omega) h2
            omega
          have hne : ((((m : Int) + yo) * size + ((cx : Int) + xo))).toNat ≠
              ((((cy : Int) + yo) * size + ((cx : Int) + xo))).toNat := by
            have h1 := hv.2.2.1
            have h2 := hvc.2.2.1
            omega
          rw [List.getElem?_set_ne hne]
          exact hwrit cy hcy'
        · subst hcy'
          exact List.getElem?_set_self hguard.2.2.2

theorem slowFill_aux (cache : List ARGB) (rw size x y xo yo sx sy : Int)
    (hS : 1 ≤ size)
    (hvalid : ∀ cx cy : Nat, cx < sx.toNat → cy < sy.toNat →
      0 ≤ ((cy : Int) + y) * rw + ((cx : Int) + x) ∧
      (((cy : Int) + y) * rw + ((cx : Int) + x)).toNat < cache.length ∧
      0 ≤ ((cy : Int) + yo) * size + ((cx : Int) + xo) ∧
      (((cy : Int) + yo) * size + ((cx : Int) + xo)).toNat <
        (size * size).toNat)
    (hcols : ∀ cx : Nat, cx < sx.toNat →
      0 ≤ (cx : Int) + xo ∧ (cx : Int) + xo < size) :
    ∀ k : Nat, k ≤ sx.toNat →
    ∃ b, (List.range k).foldl (slow_col cache rw size x y xo yo sy)
        (some (List.replicate (size * size).toNat ARGB.TRANSPARENT)) =
        some b ∧
      b.length = (size * size).toNat ∧
      (∀ p : Nat,
        (∀ cx cy : Nat, cx < k → cy < sy.toNat →
          (((cy : Int) + yo) * size + ((cx : Int) + xo)).toNat ≠ p) →
        b[p]? = (List.replicate (size * size).toNat ARGB.TRANSPARENT)[p]?) ∧
      (∀ cx cy : Nat, cx < k → cy < sy.toNat →
        b[(((cy : Int) + yo) * size + ((cx : Int) + xo)).toNat]? =
          some (cache.getD
            ((((cy : Int) + y) * rw + ((cx : Int) + x))).toNat
            ARGB.TRANSPARENT)) := by
  intro k
  induction k with
  | zero =>
      exact fun _ => ⟨List.replicate (size * size).toNat ARGB.TRANSPARENT,
        rfl, List.length_replicate _ _, fun p _ => rfl,
        fun cx cy hcx _ => absurd hcx (Nat.not_lt_zero cx)⟩
  | succ k ih =>
      intro hk
      obtain ⟨b, hb, hblen, huntouch, hwrit⟩ := ih (Nat.le_of_succ_le hk)
      have hkx : k < sx.toNat := hk
      obtain ⟨a2, ha2, hlen2, huntouch2, hwrit2⟩ :=
        slow_col_aux cache rw size x y xo yo k hS b sy.toNat
          (fun cy hcy => by
            have h := hvalid k cy hkx hcy
            exact ⟨h.1, h.2.1, h.2.2.1, by rw [hblen]; exact h.2.2.2⟩)
      have hstep :
          (List.range (k + 1)).foldl (slow_col cache rw size x y xo yo sy)
            (some (List.replicate (size * size).toNat ARGB.TRANSPARENT)) =
            some a2 := by
        rw [List.range_succ, List.foldl_append, hb]
        simpa only [List.foldl_cons, List.foldl_nil, slow_col] using ha2
      have hcolne : ∀ cx cy cy2 : Nat, cx < k → cy < sy.toNat →
          cy2 < sy.toNat →
          (((cy2 : Int) + yo) * size + ((k : Int) + xo)).toNat ≠
            (((cy : Int) + yo) * size + ((cx : Int) + xo)).toNat := by
        intro cx cy cy2 hcx hcy hcy2
        have h1 := (hvalid k cy2 hkx hcy2).2.2.1
        have h2 := (hvalid cx cy (lt_trans hcx hkx) hcy).2.2.1
        have hkne : ((cy2 : Int) + yo) * size + ((k : Int) + xo) ≠
            ((cy : Int) + yo) * size + ((cx : Int) + xo) := by
          intro heq
          have hci := hcols k hkx
          have hcj := hcols cx (lt_trans hcx hkx)
          have := rowmajor_inj size ((cy2 : Int) + yo) ((k : Int) + xo)
            ((cy : Int) + yo) ((cx : Int) + xo) hci.1 hci.2 hcj.1 hcj.2 heq
          omega
        omega
      refine ⟨a2, hstep, by rw [hlen2]; exact hblen, ?_, ?_⟩
      · intro p hp
        have h1 : a2[p]? = b[p]? :=
          huntouch2 p (fun cy hcy => hp k cy (Nat.lt_succ_self k) hcy)
        rw [h1]
        exact huntouch p
          (fun cx cy hcx hcy => hp cx cy (Nat.lt_succ_of_lt hcx) hcy)
      · intro cx cy hcx hcy
        rcases Nat.lt_succ_iff_lt_or_eq.mp hcx with hcx' | hcx'
        · have h1 : a2[(((cy : Int) + yo) * size + ((cx : Int) + xo)).toNat]? =
              b[(((cy : Int) + yo) * size + ((cx : Int) + xo)).toNat]? :=
            huntouch2 _ (fun cy2 hcy2 => hcolne cx cy cy2 hcx' hcy hcy2)
          rw [h1]
          exact hwrit cx cy hcx' hcy
        · subst hcx'
          exact hwrit2 cy hcy

/-! ## Per-axis facts about the clip arithmetic of `get_rect_from_cache` -/

/-- Every loop index of the slow path lands inside both the screen (on this
axis) and the destination square, provided the square side fits the screen
dimension.  `o` is the padding offset, `p - S/2 + o` the clipped start,
`ext` the copied extent, exactly as computed by the source. -/
theorem axis_valid (D S p o ext : Int) (hS : 1 ≤ S) (hSD : S ≤ D)
    (ho : o = if p - S / 2 < 0 then -(p - S / 2) else 0)
    (hext : ext = if (p - S / 2 + o) + S > D then D - (p - S / 2 + o)
      else S - o)
    (k : Int) (hk0 : 0 ≤ k) (hk : k < ext) :
    0 ≤ (p - S / 2 + o) + k ∧ (p - S / 2 + o) + k < D ∧
      0 ≤ k + o ∧ k + o < S := by
  subst ho
  subst hext
  split_ifs at hk ⊢ <;> omega

/-- A destination position on this axis is covered by the slow path's copy
loop exactly when its snapshot coordinate lies on the screen. -/
theorem axis_region_iff (D S p o ext : Int) (hS : 1 ≤ S) (hSD : S ≤ D)
    (ho : o = if p - S / 2 < 0 then -(p - S / 2) else 0)
    (hext : ext = if (p - S / 2 + o) + S > D then D - (p - S / 2 + o)
      else S - o)
    (i : Int) (hi0 : 0 ≤ i) (hi : i < S) :
    (o ≤ i ∧ i < o + ext) ↔ (0 ≤ p - S / 2 + i ∧ p - S / 2 + i < D) := by
  subst ho
  subst hext
  split_ifs <;> omega

/-! ## Cast helpers -/

theorem natCast_mul_add_toNat (S : Int) (hS : 0 ≤ S) (j i : Nat) :
    ((j : Int) * S + (i : Int)).toNat = j * S.toNat + i := by
  have h1 : (j : Int) * S = ((j * S.toNat : Nat) : Int) := by
    rw [Nat.cast_mul]
    congr 1
    exact (Int.toNat_of_nonneg hS).symm
  rw [h1, ← Nat.cast_add, Int.toNat_natCast]

theorem mul_self_toNat (S : Int) (hS : 0 ≤ S) :
    (S * S).toNat = S.toNat * S.toNat := by
  have h1 : S * S = ((S.toNat * S.toNat : Nat) : Int) := by
    rw [Nat.cast_mul, Int.toNat_of_nonneg hS]
  rw [h1, Int.toNat_natCast]

theorem nat_rowmajor_lt (S i j : Nat) (hi : i < S) (hj : j < S) :
    j * S + i < S * S := by
  have h1 : (j + 1) * S ≤ S * S := Nat.mul_le_mul_right _ hj
  have h2 : (j + 1) * S = j * S + S := by ring
  omega

theorem getElem?_eq_some_getD (l : List ARGB) (n : Nat) (h : n < l.length) :
    l[n]? = some (l.getD n ARGB.TRANSPARENT) := by
  rw [List.getD_eq_getElem?_getD, List.getElem?_eq_getElem h]
  rfl

/-! ## Master characterization of `get_rect_from_cache` -/

/-- Whenever the square side `S` fits both snapshot dimensions, the
function performs no out-of-bounds access (it returns `some`), the
returned side is `S` truncated to `u16`, the buffer has `S * S` pixels,
and each buffer position holds exactly the pixel described by
`rect_pixel_spec` — the cache pixel where the centered square overlaps the
screen, the transparent sentinel elsewhere. -/
theorem get_rect_from_cache_spec (cache : List ARGB) (W H : Nat)
    (px py : Int) (pw scale : Nat)
    (hlen : cache.length = W * H)
    (hSW : snapshot_square_side pw scale ≤ (W : Int))
    (hSH : snapshot_square_side pw scale ≤ (H : Int)) :
    ∃ buf, get_rect_from_cache cache W H (px, py) pw scale =
        some ((snapshot_square_side pw scale).toNat % 65536, buf) ∧
      buf.length = (snapshot_square_side pw scale).toNat *
        (snapshot_square_side pw scale).toNat ∧
      ∀ i j : Nat, i < (snapshot_square_side pw scale).toNat →
        j < (snapshot_square_side pw scale).toNat →
        buf[j * (snapshot_square_side pw scale).toNat + i]? =
          some (rect_pixel_spec cache W H px py
            (snapshot_square_side pw scale) i j) := by
  have hS1 : 1 ≤ snapshot_square_side pw scale :=
    snapshot_square_side_pos pw scale
  set S : Int := snapshot_square_side pw scale with hSdef
  set x1 : Int := px - S / 2 with hx1def
  set y1 : Int := py - S / 2 with hy1def
  set xo : Int := if x1 < 0 then -x1 else 0 with hxodef
  set yo : Int := if y1 < 0 then -y1 else 0 with hyodef
  set xv : Int := x1 + xo with hxvdef
  set yv : Int := y1 + yo with hyvdef
  set sx : Int := if xv + S > (W : Int) then (W : Int) - xv else S - xo
    with hsxdef
  set sy : Int := if yv + S > (H : Int) then (H : Int) - yv else S - yo
    with hsydef
  have hunfold : get_rect_from_cache cache W H (px, py) pw scale =
      if sx = S ∧ sy = S then
        (fastRows cache (W : Int) xv yv S).map
          (fun pxs => (S.toNat % 65536, pxs))
      else
        (slowFill cache (W : Int) S xv yv xo yo sx sy).map
          (fun pxs => (S.toNat % 65536, pxs)) := rfl
  have hcast : ((cache.length : Int)) = (W : Int) * (H : Int) := by
    rw [hlen]; push_cast; ring
  have hcomm : (H : Int) * (W : Int) = (W : Int) * (H : Int) :=
    mul_comm _ _
  have hfastiff : (sx = S ∧ sy = S) ↔
      (0 ≤ x1 ∧ x1 + S ≤ (W : Int) ∧ 0 ≤ y1 ∧ y1 + S ≤ (H : Int)) := by
    rw [hsxdef, hsydef, hxvdef, hyvdef, hxodef, hyodef]
    split_ifs <;> omega
  by_cases hfast : sx = S ∧ sy = S
  · -- fast path: the square lies fully inside the snapshot
    obtain ⟨hx10, hx1S, hy10, hy1S⟩ := hfastiff.mp hfast
    have hxv : xv = x1 := by
      rw [hxvdef, hxodef, if_neg (by omega : ¬ x1 < 0)]; ring
    have hyv : yv = y1 := by
      rw [hyvdef, hyodef, if_neg (by omega : ¬ y1 < 0)]; ring
    have hWnn : (0 : Int) ≤ (W : Int) := Int.natCast_nonneg W
    have hys : (yv + S) * (W : Int) ≤ (cache.length : Int) := by
      rw [hyv, hcast]
      have h1 : (y1 + S) * (W : Int) ≤ (H : Int) * (W : Int) :=
        mul_le_mul_of_nonneg_right (by omega) hWnn
      linarith
    obtain ⟨a, ha, halen, hachar⟩ := fastRows_spec cache (W : Int) xv yv S
      (by omega) (by omega) (by omega) (by omega) hys
    refine ⟨a, ?_, halen, ?_⟩
    · rw [hunfold, if_pos hfast, ha]; rfl
    · intro i j hi hj
      have hiS : (i : Int) < S := by omega
      have hjS : (j : Int) < S := by omega
      have hrm := rowmajor_lt (W : Int) (H : Int) (y1 + (j : Int))
        (x1 + (i : Int)) (by omega) (by omega) (by omega) (by omega)
      have heidx : (yv + (j : Int)) * (W : Int) + xv + (i : Int) =
          (y1 + (j : Int)) * (W : Int) + (x1 + (i : Int)) := by
        rw [hxv, hyv]; ring
      have hidx : ((yv + (j : Int)) * (W : Int) + xv + (i : Int)).toNat <
          cache.length := by
        rw [heidx]; omega
      rw [hachar i j hi hj, getElem?_eq_some_getD cache _ hidx]
      have hspec : rect_pixel_spec cache W H px py S i j =
          cache.getD ((yv + (j : Int)) * (W : Int) + xv + (i : Int)).toNat
            ARGB.TRANSPARENT := by
        simp only [rect_pixel_spec]
        rw [← hx1def, ← hy1def,
          if_pos ⟨by omega, by omega, by omega, by omega⟩]
        congr 1
        rw [heidx]
      rw [hspec]
  · -- slow path: transparent padding at the screen edges
    have hox : xo = if px - S / 2 < 0 then -(px - S / 2) else 0 := by
      rw [hxodef, hx1def]
    have hoy : yo = if py - S / 2 < 0 then -(py - S / 2) else 0 := by
      rw [hyodef, hy1def]
    have hextx : sx = if (px - S / 2 + xo) + S > (W : Int) then
        (W : Int) - (px - S / 2 + xo) else S - xo := by
      rw [hsxdef, hxvdef, hx1def]
    have hexty : sy = if (py - S / 2 + yo) + S > (H : Int) then
        (H : Int) - (py - S / 2 + yo) else S - yo := by
      rw [hsydef, hyvdef, hy1def]
    have hxveq : xv = px - S / 2 + xo := by rw [hxvdef, hx1def]
    have hyveq : yv = py - S / 2 + yo := by rw [hyvdef, hy1def]
    have hcols : ∀ cx : Nat, cx < sx.toNat →
        0 ≤ (cx : Int) + xo ∧ (cx : Int) + xo < S := by
      intro cx hcx
      exact (axis_valid (W : Int) S px xo sx hS1 hSW hox hextx (cx : Int)
        (by omega) (by omega)).2.2
    have hvalid : ∀ cx cy : Nat, cx < sx.toNat → cy < sy.toNat →
        0 ≤ ((cy : Int) + yv) * (W : Int) + ((cx : Int) + xv) ∧
        (((cy : Int) + yv) * (W : Int) + ((cx : Int) + xv)).toNat <
          cache.length ∧
        0 ≤ ((cy : Int) + yo) * S + ((cx : Int) + xo) ∧
        (((cy : Int) + yo) * S + ((cx : Int) + xo)).toNat <
          (S * S).toNat := by
      intro cx cy hcx hcy
      have hx_ax := axis_valid (W : Int) S px xo sx hS1 hSW hox hextx
        (cx : Int) (by omega) (by omega)
      have hy_ax := axis_valid (H : Int) S py yo sy hS1 hSH hoy hexty
        (cy : Int) (by omega) (by omega)
      have hrm := rowmajor_lt (W : Int) (H : Int) ((cy : Int) + yv)
        ((cx : Int) + xv) (by omega) (by omega) (by omega) (by omega)
      have hrm2 := rowmajor_lt S S ((cy : Int) + yo) ((cx : Int) + xo)
        (by omega) (by omega) (by omega) (by omega)
      exact ⟨hrm.1, by omega, hrm2.1, by omega⟩
    obtain ⟨b, hb, hblen, hbuntouch, hbwrit⟩ := slowFill_aux cache (W : Int)
      S xv yv xo yo sx sy hS1 hvalid hcols sx.toNat le_rfl
    have hslow : slowFill cache (W : Int) S xv yv xo yo sx sy = some b := hb
    refine ⟨b, ?_, ?_, ?_⟩
    · rw [hunfold, if_neg hfast, hslow]; rfl
    · rw [hblen, mul_self_toNat S (by omega)]
    · intro i j hi hj
      have hiS : (i : Int) < S := by omega
      have hjS : (j : Int) < S := by omega
      by_cases hreg : (xo ≤ (i : Int) ∧ (i : Int) < xo + sx) ∧
          (yo ≤ (j : Int) ∧ (j : Int) < yo + sy)
      · -- the position is covered by the copy loops
        have hxo0 : 0 ≤ xo := by rw [hxodef]; split_ifs <;> omega
        have hyo0 : 0 ≤ yo := by rw [hyodef]; split_ifs <;> omega
        set cx : Nat := ((i : Int) - xo).toNat with hcxdef
        set cy : Nat := ((j : Int) - yo).toNat with hcydef
        have hcxi : (cx : Int) = (i : Int) - xo :=
          Int.toNat_of_nonneg (by omega)
        have hcyj : (cy : Int) = (j : Int) - yo :=
          Int.toNat_of_nonneg (by omega)
        have hcxlt : cx < sx.toNat := by omega
        have hcylt : cy < sy.toNat := by omega
        have hw := hbwrit cx cy hcxlt hcylt
        have hpidx : (((cy : Int) + yo) * S + ((cx : Int) + xo)).toNat =
            j * S.toNat + i := by
          have e1 : ((cy : Int) + yo) = (j : Int) := by omega
          have e2 : ((cx : Int) + xo) = (i : Int) := by omega
          rw [e1, e2, natCast_mul_add_toNat S (by omega) j i]
        rw [hpidx] at hw
        rw [hw]
        congr 1
        have e3 : ((cy : Int) + yv) * (W : Int) + ((cx : Int) + xv) =
            (py - S / 2 + (j : Int)) * (W : Int) +
              (px - S / 2 + (i : Int)) := by
          have e4 : (cy : Int) + yv = py - S / 2 + (j : Int) := by omega
          have e5 : (cx : Int) + xv = px - S / 2 + (i : Int) := by omega
          rw [e4, e5]
        rw [e3]
        have hscrx := (axis_region_iff (W : Int) S px xo sx hS1 hSW hox hextx
          (i : Int) (by omega) hiS).mp hreg.1
        have hscry := (axis_region_iff (H : Int) S py yo sy hS1 hSH hoy hexty
          (j : Int) (by omega) hjS).mp hreg.2
        simp only [rect_pixel_spec]
        rw [if_pos ⟨hscrx.1, hscrx.2, hscry.1, hscry.2⟩]
      · -- the position is untouched: transparent padding
        have hnot : ∀ cx cy : Nat, cx < sx.toNat → cy < sy.toNat →
            (((cy : Int) + yo) * S + ((cx : Int) + xo)).toNat ≠
              j * S.toNat + i := by
          intro cx cy hcx hcy heq
          have hc := hcols cx hcx
          have hpnn := (hvalid cx cy hcx hcy).2.2.1
          have h6 : j * S.toNat + i = ((j : Int) * S + (i : Int)).toNat :=
            (natCast_mul_add_toNat S (by omega) j i).symm
          have hnn2 : (0 : Int) ≤ (j : Int) * S + (i : Int) := by
            have := mul_nonneg (Int.natCast_nonneg j)
              (le_trans zero_le_one hS1)
            omega
          have heqInt : ((cy : Int) + yo) * S + ((cx : Int) + xo) =
              (j : Int) * S + (i : Int) := by omega
          have hrmaj := rowmajor_inj S ((cy : Int) + yo) ((cx : Int) + xo)
            (j : Int) (i : Int) hc.1 hc.2 (by omega) hiS heqInt
          exact hreg ⟨⟨by omega, by omega⟩, ⟨by omega, by omega⟩⟩
        have hpltn : j * S.toNat + i < (S * S).toNat := by
          rw [mul_self_toNat S (by omega)]
          exact nat_rowmajor_lt S.toNat i j hi hj
        rw [hbuntouch (j * S.toNat + i) hnot, List.getElem?_replicate,
          if_pos hpltn]
        congr 1
        have hncond : ¬(0 ≤ px - S / 2 + (i : Int) ∧
            px - S / 2 + (i : Int) < (W : Int) ∧
            0 ≤ py - S / 2 + (j : Int) ∧
            py - S / 2 + (j : Int) < (H : Int)) := by
          intro hcond
          exact hreg ⟨(axis_region_iff (W : Int) S px xo sx hS1 hSW hox hextx
              (i : Int) (by omega) hiS).mpr ⟨hcond.1, hcond.2.1⟩,
            (axis_region_iff (H : Int) S py yo sy hS1 hSH hoy hexty
              (j : Int) (by omega) hjS).mpr ⟨hcond.2.2.1, hcond.2.2.2⟩⟩
        simp only [rect_pixel_spec]
        rw [if_neg hncond]

/-! ## Reduction lemmas for the session setup -/

theorem escape_keycode_ok (conn : Conn) (h : conn.escape_keycode_raw ≠ 0) :
    escape_keycode conn = .ok conn.escape_keycode_raw := by
  unfold escape_keycode
  rw [if_neg h]

theorem return_keycode_ok (conn : Conn) (h : conn.return_keycode_raw ≠ 0) :
    return_keycode conn = .ok conn.return_keycode_raw := by
  unfold return_keycode
  rw [if_neg h]

theorem grab_pointer_ok (conn : Conn)
    (h : conn.grab_pointer_reply = some GRAB_STATUS_SUCCESS) :
    grab_pointer conn = .ok () := by
  unfold grab_pointer
  rw [h]
  simp

theorem grab_keyboard_ok (conn : Conn)
    (h : conn.grab_keyboard_reply = some GRAB_STATUS_SUCCESS) :
    grab_keyboard_with_retry conn = .ok () := by
  unfold grab_keyboard_with_retry
  rw [h]
  simp

/-- Decomposition of a run whose setup succeeds and whose square side fits
the screen: the outcome is the loop's outcome, and the trace is the fixed
setup trace, then the loop's trace, then — only when the loop returns
normally — the teardown sequence. -/
theorem wait_for_location_run
    (draw : List Nat → List ARGB → Nat → Nat → List Nat)
    (conn : Conn) (screen : Screen) (pw scale : Nat)
    (cache : List ARGB) (v : Nat) (ip : Int × Int)
    (hesc : conn.escape_keycode_raw ≠ 0)
    (hret : conn.return_keycode_raw ≠ 0)
    (hgp : conn.grab_pointer_reply = some GRAB_STATUS_SUCCESS)
    (hwr : conn.window_rect_reply = some cache)
    (hvis : find_argb_visual screen = some v)
    (hip : conn.initial_pointer_reply = some ip)
    (hgk : conn.grab_keyboard_reply = some GRAB_STATUS_SUCCESS)
    (hlen : cache.length =
      screen.width_in_pixels * screen.height_in_pixels)
    (hSW : snapshot_square_side (ensure_odd_nat pw) scale ≤
      (screen.width_in_pixels : Int))
    (hSH : snapshot_square_side (ensure_odd_nat pw) scale ≤
      (screen.height_in_pixels : Int)) :
    wait_for_location draw conn screen pw scale =
      ((session_loop draw cache screen.width_in_pixels
          screen.height_in_pixels conn.escape_keycode_raw
          conn.return_keycode_raw conn.loop_pointer_reply
          (ensure_odd_nat pw) scale conn.events).1,
        setup_actions ++
          (session_loop draw cache screen.width_in_pixels
            screen.height_in_pixels conn.escape_keycode_raw
            conn.return_keycode_raw conn.loop_pointer_reply
            (ensure_odd_nat pw) scale conn.events).2 ++
          (match (session_loop draw cache screen.width_in_pixels
              screen.height_in_pixels conn.escape_keycode_raw
              conn.return_keycode_raw conn.loop_pointer_reply
              (ensure_odd_nat pw) scale conn.events).1 with
            | .ok _ => cleanup_actions
            | _ => [])) := by
  obtain ⟨buf, hbuf, _, _⟩ := get_rect_from_cache_spec cache
    screen.width_in_pixels screen.height_in_pixels ip.1 ip.2
    (ensure_odd_nat pw) scale hlen hSW hSH
  have hbuf2 : get_rect_from_cache cache screen.width_in_pixels
      screen.height_in_pixels ip (ensure_odd_nat pw) scale =
      some ((snapshot_square_side (ensure_odd_nat pw) scale).toNat % 65536,
        buf) := hbuf
  have hrv : render_magnifier_from_cache draw cache screen.width_in_pixels
      screen.height_in_pixels ip (ensure_odd_nat pw) scale =
      some (draw
        (List.replicate (ensure_odd_nat pw * ensure_odd_nat pw) 0) buf
        ((snapshot_square_side (ensure_odd_nat pw) scale).toNat % 65536)
        (magnifier_pixel_size (ensure_odd_nat pw)
          ((snapshot_square_side (ensure_odd_nat pw) scale).toNat %
            65536))) := by
    unfold render_magnifier_from_cache
    rw [hbuf2]
    rfl
  simp only [wait_for_location, escape_keycode_ok conn hesc,
    return_keycode_ok conn hret, grab_pointer_ok conn hgp, hwr, hvis, hip,
    hrv, grab_keyboard_ok conn hgk]
  cases hsl : (session_loop draw cache screen.width_in_pixels
      screen.height_in_pixels conn.escape_keycode_raw
      conn.return_keycode_raw conn.loop_pointer_reply
      (ensure_odd_nat pw) scale conn.events).1 <;>
    simp [hsl, setup_actions, create_blank_cursor_actions, cleanup_actions,
      List.append_assoc]

/-! ## Lemmas about the event loop -/

theorem clamp_coord_lt (v : Int) (d : Nat) (hd : 1 ≤ d) :
    clamp_coord v d < d := by
  unfold clamp_coord
  have := Nat.min_le_right (max v 0).toNat (d - 1)
  omega

/-- The clamped pixel index always lies inside a `W * H` cache. -/
theorem clamp_index_lt (W H : Nat) (hW : 1 ≤ W) (hH : 1 ≤ H)
    (vx vy : Int) : clamp_coord vy H * W + clamp_coord vx W < W * H := by
  have h1 := clamp_coord_lt vx W hW
  have h2 := clamp_coord_lt vy H hH
  have h3 : (clamp_coord vy H + 1) * W ≤ H * W :=
    Nat.mul_le_mul_right _ (by omega)
  have h4 : (clamp_coord vy H + 1) * W = clamp_coord vy H * W + W := by ring
  have h5 : H * W = W * H := Nat.mul_comm H W
  omega

/-- The event loop issues no screen capture and creates no window: its
trace contains neither `getImage` nor `createWindow`. -/
theorem session_loop_no_capture
    (draw : List Nat → List ARGB → Nat → Nat → List Nat)
    (cache : List ARGB) (W H esc ret : Nat) (qrep : Option (Int × Int))
    (pw scale : Nat) :
    ∀ events : List XEvent,
      (session_loop draw cache W H esc ret qrep pw scale events).2.filter
        capture_or_create = [] := by
  intro events
  induction events with
  | nil => rfl
  | cons e rest ih =>
      cases e with
      | buttonPress detail rx ry =>
          simp only [session_loop]
          split
          · split <;> rfl
          · exact ih
      | keyPress detail =>
          simp only [session_loop]
          split
          · rfl
          · split
            · split
              · rfl
              · split <;> rfl
            · exact ih
      | motionNotify rx ry =>
          simp only [session_loop]
          split
          · rfl
          · simp only [List.filter_cons, capture_or_create]
            simpa using ih
      | otherEvent => exact ih

/-- Under the session invariants — the cache has `W * H` pixels, the screen
is nonempty and the square side fits it — no event, whatever its
coordinates, can make the loop access out of bounds. -/
theorem session_loop_no_panic
    (draw : List Nat → List ARGB → Nat → Nat → List Nat)
    (cache : List ARGB) (W H esc ret : Nat) (qrep : Option (Int × Int))
    (pw scale : Nat)
    (hlen : cache.length = W * H) (hW : 1 ≤ W) (hH : 1 ≤ H)
    (hSW : snapshot_square_side pw scale ≤ (W : Int))
    (hSH : snapshot_square_side pw scale ≤ (H : Int)) :
    ∀ events : List XEvent,
      (session_loop draw cache W H esc ret qrep pw scale events).1 ≠
        Outcome.panic := by
  intro events
  induction events with
  | nil => simp [session_loop]
  | cons e rest ih =>
      cases e with
      | buttonPress detail rx ry =>
          simp only [session_loop]
          split
          · have hidx : clamp_coord ry H * W + clamp_coord rx W <
                cache.length := by
              rw [hlen]; exact clamp_index_lt W H hW hH rx ry
            rw [List.getElem?_eq_getElem hidx]
            simp
          · exact ih
      | keyPress detail =>
          simp only [session_loop]
          split
          · simp
          · split
            · split
              · simp
              · rename_i p
                have hidx : clamp_coord p.2 H * W + clamp_coord p.1 W <
                    cache.length := by
                  rw [hlen]; exact clamp_index_lt W H hW hH p.1 p.2
                rw [List.getElem?_eq_getElem hidx]
                simp
            · exact ih
      | motionNotify rx ry =>
          simp only [session_loop]
          obtain ⟨buf, hbuf, _, _⟩ := get_rect_from_cache_spec cache W H
            rx ry pw scale hlen hSW hSH
          have hr : render_magnifier_from_cache draw cache W H (rx, ry)
              pw scale =
              some (draw (List.replicate (pw * pw) 0) buf
                ((snapshot_square_side pw scale).toNat % 65536)
                (magnifier_pixel_size pw
                  ((snapshot_square_side pw scale).toNat % 65536))) := by
            unfold render_magnifier_from_cache
            rw [hbuf]
            rfl
          rw [hr]
          simpa using ih
      | otherEvent => exact ih

/-- C5 (amended): button-press and confirm-key pointer coordinates are
clamped independently in each axis to `[0, dimension-1]` before the
snapshot cache is indexed (the lookups in `session_loop` go through
`clamp_coord`); motion coordinates are passed unclamped to
`get_rect_from_cache`, whose own edge clipping stays in bounds whenever
the square side fits the screen.  Consequently — nonempty screen, cache of
`W * H` pixels whenever the capture succeeds, square side fitting the
screen — a run of `wait_for_location` never performs an out-of-bounds
cache access or panics, whatever events and coordinates the server
delivers. -/
theorem C5_no_out_of_bounds_access
    (draw : List Nat → List ARGB → Nat → Nat → List Nat)
    (conn : Conn) (screen : Screen) (pw scale : Nat)
    (hW : 1 ≤ screen.width_in_pixels) (hH : 1 ≤ screen.height_in_pixels)
    (hcache : ∀ cache, conn.window_rect_reply = some cache →
      cache.length = screen.width_in_pixels * screen.height_in_pixels)
    (hSW : snapshot_square_side (ensure_odd_nat pw) scale ≤
      (screen.width_in_pixels : Int))
    (hSH : snapshot_square_side (ensure_odd_nat pw) scale ≤
      (screen.height_in_pixels : Int)) :
    (wait_for_location draw conn screen pw scale).1 ≠ Outcome.panic := by
  simp only [wait_for_location]
  split
  · simp
  rename_i xe escape_kc hesc
  split
  · simp
  rename_i xr return_kc hret
  split
  · simp
  rename_i xg ug hgp
  split
  · simp
  rename_i xw cache hwr
  split
  · simp
  rename_i xv v hvis
  split
  · simp
  rename_i xi ip hip
  split
  · -- the initial render cannot panic: the square side fits the screen
    rename_i xn hrnone
    obtain ⟨buf, hbuf, _, _⟩ := get_rect_from_cache_spec cache
      screen.width_in_pixels screen.height_in_pixels ip.1 ip.2
      (ensure_odd_nat pw) scale (hcache cache hwr) hSW hSH
    have hbuf2 : get_rect_from_cache cache screen.width_in_pixels
        screen.height_in_pixels ip (ensure_odd_nat pw) scale =
        some ((snapshot_square_side (ensure_odd_nat pw) scale).toNat %
          65536, buf) := hbuf
    unfold render_magnifier_from_cache at hrnone
    rw [hbuf2] at hrnone
    simp at hrnone
  rename_i xrd rpix hrend
  split
  · simp
  rename_i xk uk hgk
  -- the loop itself cannot panic
  cases hsl : (session_loop draw cache screen.width_in_pixels
      screen.height_in_pixels escape_kc return_kc conn.loop_pointer_reply
      (ensure_odd_nat pw) scale conn.events).1 with
  | ok r => simp [hsl]
  | err e => simp [hsl]
  | panic =>
      exact absurd hsl (session_loop_no_panic draw cache
        screen.width_in_pixels screen.height_in_pixels escape_kc return_kc
        conn.loop_pointer_reply (ensure_odd_nat pw) scale
        (hcache cache hwr) hW hH hSW hSH conn.events)

theorem ensure_odd_nat_odd (n : Nat) : Odd (ensure_odd_nat n) := by
  unfold ensure_odd_nat
  rw [Nat.odd_iff]
  split <;> omega

theorem ensure_odd_nat_pos (n : Nat) : 1 ≤ ensure_odd_nat n := by
  unfold ensure_odd_nat
  split <;> omega

theorem snapshot_square_side_toNat (pw scale : Nat) :
    (snapshot_square_side pw scale).toNat = ensure_odd_nat (pw / scale) := by
  unfold snapshot_square_side
  rw [ensure_odd_int_ofNat, Int.toNat_natCast]

/-- When the side fits a `u16` screen width, the `as u16` cast of the side
is the side itself. -/
theorem snapshot_side_u16 (pw scale W : Nat)
    (hSW : snapshot_square_side pw scale ≤ (W : Int)) (hW16 : W < 65536) :
    (snapshot_square_side pw scale).toNat % 65536 =
      ensure_odd_nat (pw / scale) := by
  have h := snapshot_square_side_toNat pw scale
  have h2 : (snapshot_square_side pw scale).toNat ≤ W := by omega
  omega

/-- One loop step: a primary-button press ends the loop with the cache
pixel at the clamped coordinates. -/
theorem session_loop_button
    (draw : List Nat → List ARGB → Nat → Nat → List Nat)
    (cache : List ARGB) (W H esc ret : Nat) (qrep : Option (Int × Int))
    (pw scale : Nat) (bx vy : Int) (rest : List XEvent)
    (hidx : clamp_coord vy H * W + clamp_coord bx W < cache.length) :
    session_loop draw cache W H esc ret qrep pw scale
      (XEvent.buttonPress SELECTION_BUTTON bx vy :: rest) =
      (Outcome.ok (some (cache.getD
        (clamp_coord vy H * W + clamp_coord bx W) ARGB.TRANSPARENT)), []) := by
  simp only [session_loop]
  rw [getElem?_eq_some_getD cache _ hidx]
  simp

/-- One loop step: a key press carrying the Escape keycode ends the loop
with no selection. -/
theorem session_loop_escape
    (draw : List Nat → List ARGB → Nat → Nat → List Nat)
    (cache : List ARGB) (W H esc ret : Nat) (qrep : Option (Int × Int))
    (pw scale : Nat) (rest : List XEvent) :
    session_loop draw cache W H esc ret qrep pw scale
      (XEvent.keyPress esc :: rest) = (Outcome.ok none, []) := by
  simp [session_loop]

/-! ## Claim theorems -/

/-- C3: for every snapshot cache of width `W` and height `H` and every
pointer coordinate, if the `S × S` square centered on the pointer
(`S = ensure_odd(preview_width / scale)`) lies fully within
`[0, W) × [0, H)`, then `get_rect_from_cache` returns an `S`2-pixel buffer
every pixel of which equals the cache pixel at the corresponding position,
with no padding introduced. -/
theorem C3_full_square_exact_copy (cache : List ARGB) (W H : Nat)
    (px py : Int) (pw scale : Nat)
    (hlen : cache.length = W * H) (hW16 : W < 65536)
    (hx0 : 0 ≤ px - snapshot_square_side pw scale / 2)
    (hxS : px - snapshot_square_side pw scale / 2 +
      snapshot_square_side pw scale ≤ (W : Int))
    (hy0 : 0 ≤ py - snapshot_square_side pw scale / 2)
    (hyS : py - snapshot_square_side pw scale / 2 +
      snapshot_square_side pw scale ≤ (H : Int)) :
    ∃ buf, get_rect_from_cache cache W H (px, py) pw scale =
        some (ensure_odd_nat (pw / scale), buf) ∧
      buf.length = ensure_odd_nat (pw / scale) * ensure_odd_nat (pw / scale) ∧
      ∀ i j : Nat, i < ensure_odd_nat (pw / scale) →
        j < ensure_odd_nat (pw / scale) →
        buf[j * ensure_odd_nat (pw / scale) + i]? =
          cache[((py - snapshot_square_side pw scale / 2 + (j : Int)) *
            (W : Int) +
            (px - snapshot_square_side pw scale / 2 + (i : Int))).toNat]? := by
  have hS1 := snapshot_square_side_pos pw scale
  have hSW : snapshot_square_side pw scale ≤ (W : Int) := by omega
  have hSH : snapshot_square_side pw scale ≤ (H : Int) := by omega
  obtain ⟨buf, hbuf, hblen, hchar⟩ :=
    get_rect_from_cache_spec cache W H px py pw scale hlen hSW hSH
  have hside := snapshot_side_u16 pw scale W hSW hW16
  have htn := snapshot_square_side_toNat pw scale
  refine ⟨buf, by rw [hbuf, hside], by rw [hblen, htn], ?_⟩
  intro i j hi hj
  have hi2 : i < (snapshot_square_side pw scale).toNat := by omega
  have hj2 : j < (snapshot_square_side pw scale).toNat := by omega
  have hiS : (i : Int) < snapshot_square_side pw scale := by omega
  have hjS : (j : Int) < snapshot_square_side pw scale := by omega
  have hch := hchar i j hi2 hj2
  rw [htn] at hch
  rw [hch]
  have hcast : ((cache.length : Int)) = (W : Int) * (H : Int) := by
    rw [hlen]; push_cast; ring
  have hcomm : (H : Int) * (W : Int) = (W : Int) * (H : Int) := mul_comm _ _
  have hrm := rowmajor_lt (W : Int) (H : Int)
    (py - snapshot_square_side pw scale / 2 + (j : Int))
    (px - snapshot_square_side pw scale / 2 + (i : Int))
    (by omega) (by omega) (by omega) (by omega)
  have hidx : ((py - snapshot_square_side pw scale / 2 + (j : Int)) *
      (W : Int) +
      (px - snapshot_square_side pw scale / 2 + (i : Int))).toNat <
      cache.length := by omega
  rw [getElem?_eq_some_getD cache _ hidx]
  congr 1
  simp only [rect_pixel_spec]
  rw [if_pos ⟨by omega, by omega, by omega, by omega⟩]

/-- C4 counterexample: at the concrete in-bounds pointer `(1, 0)` on a
4 × 4 snapshot, within `S/2 = 2` of the top edge with `S = 5`, the Rust
function panics (an out-of-bounds write into the padding buffer, modelled
as `none`) instead of returning a padded buffer as the claim states. -/
theorem C4_counterexample :
    ((0 : Int) ≤ 1 ∧ (1 : Int) < 4 ∧ (0 : Int) ≤ 0 ∧ (0 : Int) < 4) ∧
    (0 : Int) < snapshot_square_side 5 1 / 2 ∧
    get_rect_from_cache (List.replicate 16 3) 4 4 (1, 0) 5 1 = none := by
  decide

/-- C4 (amended with the proviso `S ≤ W` and `S ≤ H`): for every in-bounds
pointer within `S/2` of a screen edge, the returned buffer holds the fully
transparent sentinel at every position whose snapshot coordinate is out of
bounds, and the corresponding cache pixel at every position whose snapshot
coordinate is in bounds. -/
theorem C4_edge_padding (cache : List ARGB) (W H : Nat)
    (px py : Int) (pw scale : Nat)
    (hlen : cache.length = W * H) (hW16 : W < 65536)
    (hpx : 0 ≤ px ∧ px < (W : Int)) (hpy : 0 ≤ py ∧ py < (H : Int))
    (hedge : px < snapshot_square_side pw scale / 2 ∨
      (W : Int) ≤ px + snapshot_square_side pw scale / 2 + 1 ∨
      py < snapshot_square_side pw scale / 2 ∨
      (H : Int) ≤ py + snapshot_square_side pw scale / 2 + 1)
    (hSW : snapshot_square_side pw scale ≤ (W : Int))
    (hSH : snapshot_square_side pw scale ≤ (H : Int)) :
    ∃ buf, get_rect_from_cache cache W H (px, py) pw scale =
        some (ensure_odd_nat (pw / scale), buf) ∧
      buf.length = ensure_odd_nat (pw / scale) * ensure_odd_nat (pw / scale) ∧
      ∀ i j : Nat, i < ensure_odd_nat (pw / scale) →
        j < ensure_odd_nat (pw / scale) →
        ((0 ≤ px - snapshot_square_side pw scale / 2 + (i : Int) ∧
          px - snapshot_square_side pw scale / 2 + (i : Int) < (W : Int) ∧
          0 ≤ py - snapshot_square_side pw scale / 2 + (j : Int) ∧
          py - snapshot_square_side pw scale / 2 + (j : Int) < (H : Int)) →
          buf[j * ensure_odd_nat (pw / scale) + i]? =
            cache[((py - snapshot_square_side pw scale / 2 + (j : Int)) *
              (W : Int) +
              (px - snapshot_square_side pw scale / 2 + (i : Int))).toNat]?) ∧
        (¬(0 ≤ px - snapshot_square_side pw scale / 2 + (i : Int) ∧
          px - snapshot_square_side pw scale / 2 + (i : Int) < (W : Int) ∧
          0 ≤ py - snapshot_square_side pw scale / 2 + (j : Int) ∧
          py - snapshot_square_side pw scale / 2 + (j : Int) < (H : Int)) →
          buf[j * ensure_odd_nat (pw / scale) + i]? =
            some ARGB.TRANSPARENT) := by
  have hS1 := snapshot_square_side_pos pw scale
  obtain ⟨buf, hbuf, hblen, hchar⟩ :=
    get_rect_from_cache_spec cache W H px py pw scale hlen hSW hSH
  have hside := snapshot_side_u16 pw scale W hSW hW16
  have htn := snapshot_square_side_toNat pw scale
  refine ⟨buf, by rw [hbuf, hside], by rw [hblen, htn], ?_⟩
  intro i j hi hj
  have hi2 : i < (snapshot_square_side pw scale).toNat := by omega
  have hj2 : j < (snapshot_square_side pw scale).toNat := by omega
  have hch := hchar i j hi2 hj2
  rw [htn] at hch
  have hcast : ((cache.length : Int)) = (W : Int) * (H : Int) := by
    rw [hlen]; push_cast; ring
  have hcomm : (H : Int) * (W : Int) = (W : Int) * (H : Int) := mul_comm _ _
  constructor
  · intro hscr
    rw [hch]
    have hrm := rowmajor_lt (W : Int) (H : Int)
      (py - snapshot_square_side pw scale / 2 + (j : Int))
      (px - snapshot_square_side pw scale / 2 + (i : Int))
      (by omega) (by omega) (by omega) (by omega)
    have hidx : ((py - snapshot_square_side pw scale / 2 + (j : Int)) *
        (W : Int) +
        (px - snapshot_square_side pw scale / 2 + (i : Int))).toNat <
        cache.length := by omega
    rw [getElem?_eq_some_getD cache _ hidx]
    congr 1
    simp only [rect_pixel_spec]
    rw [if_pos ⟨hscr.1, hscr.2.1, hscr.2.2.1, hscr.2.2.2⟩]
  · intro hscr
    rw [hch]
    congr 1
    simp only [rect_pixel_spec]
    rw [if_neg hscr]

/-- C6 counterexample: at the concrete in-bounds pointer `(0, 0)` on a
4 × 4 snapshot with `preview_width = 5`, `scale = 1` (so `S = 5 > 4`),
the Rust function panics (modelled as `none`) instead of returning a side
and a buffer. -/
theorem C6_counterexample :
    ((0 : Int) ≤ 0 ∧ (0 : Int) < 4 ∧ (0 : Int) ≤ 0 ∧ (0 : Int) < 4) ∧
    get_rect_from_cache (List.replicate 16 7) 4 4 (0, 0) 5 1 = none := by
  decide

/-- C6 (amended with the proviso `S ≤ W` and `S ≤ H`): for every in-bounds
pointer, `get_rect_from_cache` returns the odd side
`S = ensure_odd(preview_width / scale)` together with a buffer of exactly
`S * S` pixels. -/
theorem C6_side_and_length (cache : List ARGB) (W H : Nat)
    (px py : Int) (pw scale : Nat)
    (hlen : cache.length = W * H) (hW16 : W < 65536)
    (hpx : 0 ≤ px ∧ px < (W : Int)) (hpy : 0 ≤ py ∧ py < (H : Int))
    (hSW : snapshot_square_side pw scale ≤ (W : Int))
    (hSH : snapshot_square_side pw scale ≤ (H : Int)) :
    ∃ buf, get_rect_from_cache cache W H (px, py) pw scale =
        some (ensure_odd_nat (pw / scale), buf) ∧
      Odd (ensure_odd_nat (pw / scale)) ∧
      buf.length = ensure_odd_nat (pw / scale) *
        ensure_odd_nat (pw / scale) := by
  obtain ⟨buf, hbuf, hblen, _⟩ :=
    get_rect_from_cache_spec cache W H px py pw scale hlen hSW hSH
  have hside := snapshot_side_u16 pw scale W hSW hW16
  have htn := snapshot_square_side_toNat pw scale
  exact ⟨buf, by rw [hbuf, hside], ensure_odd_nat_odd _,
    by rw [hblen, htn]⟩

/-- C9: for every pointer coordinate, however far off-screen, provided the
cache has length `W * H` and the square side `S` fits both dimensions,
`get_rect_from_cache` performs no out-of-bounds access (it returns a
value), the buffer has exactly `S * S` pixels, and when the centered
square lies entirely outside the screen the buffer is entirely the
transparent sentinel. -/
theorem C9_off_screen_safety (cache : List ARGB) (W H : Nat)
    (px py : Int) (pw scale : Nat)
    (hlen : cache.length = W * H) (hW16 : W < 65536)
    (hSW : snapshot_square_side pw scale ≤ (W : Int))
    (hSH : snapshot_square_side pw scale ≤ (H : Int)) :
    ∃ buf, get_rect_from_cache cache W H (px, py) pw scale =
        some (ensure_odd_nat (pw / scale), buf) ∧
      buf.length = ensure_odd_nat (pw / scale) *
        ensure_odd_nat (pw / scale) ∧
      ((px - snapshot_square_side pw scale / 2 +
          snapshot_square_side pw scale ≤ 0 ∨
        (W : Int) ≤ px - snapshot_square_side pw scale / 2 ∨
        py - snapshot_square_side pw scale / 2 +
          snapshot_square_side pw scale ≤ 0 ∨
        (H : Int) ≤ py - snapshot_square_side pw scale / 2) →
        buf = List.replicate
          (ensure_odd_nat (pw / scale) * ensure_odd_nat (pw / scale))
          ARGB.TRANSPARENT) := by
  have hS1 := snapshot_square_side_pos pw scale
  obtain ⟨buf, hbuf, hblen, hchar⟩ :=
    get_rect_from_cache_spec cache W H px py pw scale hlen hSW hSH
  have hside := snapshot_side_u16 pw scale W hSW hW16
  have htn := snapshot_square_side_toNat pw scale
  have he1 := ensure_odd_nat_pos (pw / scale)
  refine ⟨buf, by rw [hbuf, hside], by rw [hblen, htn], ?_⟩
  intro hoff
  apply List.ext_getElem?
  intro n
  by_cases hn : n < ensure_odd_nat (pw / scale) * ensure_odd_nat (pw / scale)
  · have hj : n / ensure_odd_nat (pw / scale) < ensure_odd_nat (pw / scale) :=
      (Nat.div_lt_iff_lt_mul (by omega)).mpr hn
    have hi : n % ensure_odd_nat (pw / scale) < ensure_odd_nat (pw / scale) :=
      Nat.mod_lt _ (by omega)
    have hdm := Nat.div_add_mod n (ensure_odd_nat (pw / scale))
    have hcm : (n / ensure_odd_nat (pw / scale)) * ensure_odd_nat (pw / scale)
        = ensure_odd_nat (pw / scale) * (n / ensure_odd_nat (pw / scale)) :=
      Nat.mul_comm _ _
    have hneq : n = (n / ensure_odd_nat (pw / scale)) *
        ensure_odd_nat (pw / scale) + n % ensure_odd_nat (pw / scale) := by
      omega
    have hch := hchar (n % ensure_odd_nat (pw / scale))
      (n / ensure_odd_nat (pw / scale)) (by omega) (by omega)
    rw [htn] at hch
    rw [hneq, hch, List.getElem?_replicate, if_pos (by omega)]
    congr 1
    simp only [rect_pixel_spec]
    rw [if_neg]
    intro hcond
    have hennS : ((ensure_odd_nat (pw / scale) : Nat) : Int) =
        snapshot_square_side pw scale := by
      rw [← htn, Int.toNat_of_nonneg (by omega)]
    have hiS : ((n % ensure_odd_nat (pw / scale) : Nat) : Int) <
        snapshot_square_side pw scale := by
      rw [← hennS]
      exact_mod_cast hi
    have hjS : ((n / ensure_odd_nat (pw / scale) : Nat) : Int) <
        snapshot_square_side pw scale := by
      rw [← hennS]
      exact_mod_cast hj
    have hi0 : (0 : Int) ≤ ((n % ensure_odd_nat (pw / scale) : Nat) : Int) :=
      Int.natCast_nonneg _
    have hj0 : (0 : Int) ≤ ((n / ensure_odd_nat (pw / scale) : Nat) : Int) :=
      Int.natCast_nonneg _
    rcases hoff with h | h | h | h <;> omega
  · have hblen2 : buf.length =
        ensure_odd_nat (pw / scale) * ensure_odd_nat (pw / scale) := by
      rw [hblen, htn]
    rw [List.getElem?_eq_none (by omega : buf.length ≤ n),
      List.getElem?_eq_none (by
        rw [List.length_replicate]
        omega)]

set_option maxRecDepth 4000 in
/-- C7: in `render_magnifier_from_cache`, the replication factor handed to
the glass-drawing routine is the least odd integer strictly greater than
the integer ratio of destination side to source side (ratio `+1` if even,
`+2` if odd); in particular, for `preview_width = 101` and `scale = 4` the
extraction side is `25` and the factor is `5` — checked end to end through
the render pipeline with a probe in place of the external drawing
routine. -/
theorem C7_pixel_size :
    (∀ dest src : Nat,
      Odd (magnifier_pixel_size dest src) ∧
      dest / src < magnifier_pixel_size dest src ∧
      ∀ m : Nat, Odd m → dest / src < m → magnifier_pixel_size dest src ≤ m) ∧
    (get_rect_from_cache (List.replicate 625 9) 25 25 (12, 12) 101 4).map
      Prod.fst = some 25 ∧
    render_magnifier_from_cache probe_draw_pixel_size
      (List.replicate 625 9) 25 25 (12, 12) 101 4 = some [5] := by
  refine ⟨?_, by decide, by decide⟩
  intro dest src
  unfold magnifier_pixel_size
  simp only [Nat.odd_iff]
  constructor
  · split <;> omega
  constructor
  · split <;> omega
  · intro m hm hgt
    split <;> omega

/-- C1: with a successful setup (keycodes resolved, grabs acquired,
capture returning a `W * H` snapshot, ARGB visual present) and a square
side fitting the screen, `wait_for_location` yields `Some c` when a press
of the primary (left) button arrives, where `c` is the snapshot-cache
pixel at the event coordinates clamped to the screen bounds; `None` when
a key press with the Escape keycode arrives with no prior selection; and
`None` when the event stream terminates. -/
theorem C1_session_outcomes
    (draw : List Nat → List ARGB → Nat → Nat → List Nat)
    (conn : Conn) (screen : Screen) (pw scale : Nat)
    (cache : List ARGB) (v : Nat) (ip : Int × Int)
    (hesc : conn.escape_keycode_raw ≠ 0)
    (hret : conn.return_keycode_raw ≠ 0)
    (hgp : conn.grab_pointer_reply = some GRAB_STATUS_SUCCESS)
    (hwr : conn.window_rect_reply = some cache)
    (hvis : find_argb_visual screen = some v)
    (hip : conn.initial_pointer_reply = some ip)
    (hgk : conn.grab_keyboard_reply = some GRAB_STATUS_SUCCESS)
    (hW : 1 ≤ screen.width_in_pixels) (hH : 1 ≤ screen.height_in_pixels)
    (hlen : cache.length =
      screen.width_in_pixels * screen.height_in_pixels)
    (hSW : snapshot_square_side (ensure_odd_nat pw) scale ≤
      (screen.width_in_pixels : Int))
    (hSH : snapshot_square_side (ensure_odd_nat pw) scale ≤
      (screen.height_in_pixels : Int)) :
    (∀ bx vy : Int, ∀ rest : List XEvent,
      conn.events = XEvent.buttonPress SELECTION_BUTTON bx vy :: rest →
      (wait_for_location draw conn screen pw scale).1 =
        Outcome.ok (some (cache.getD
          (clamp_coord vy screen.height_in_pixels *
              screen.width_in_pixels +
            clamp_coord bx screen.width_in_pixels) ARGB.TRANSPARENT))) ∧
    (∀ rest : List XEvent,
      conn.events = XEvent.keyPress conn.escape_keycode_raw :: rest →
      (wait_for_location draw conn screen pw scale).1 = Outcome.ok none) ∧
    (conn.events = [] →
      (wait_for_location draw conn screen pw scale).1 =
        Outcome.ok none) := by
  have hrun := wait_for_location_run draw conn screen pw scale cache v ip
    hesc hret hgp hwr hvis hip hgk hlen hSW hSH
  refine ⟨?_, ?_, ?_⟩
  · intro bx vy rest hev
    have hidx : clamp_coord vy screen.height_in_pixels *
        screen.width_in_pixels + clamp_coord bx screen.width_in_pixels <
        cache.length := by
      rw [hlen]
      exact clamp_index_lt _ _ hW hH bx vy
    rw [hrun, hev, session_loop_button draw cache screen.width_in_pixels
      screen.height_in_pixels conn.escape_keycode_raw
      conn.return_keycode_raw conn.loop_pointer_reply (ensure_odd_nat pw)
      scale bx vy rest hidx]
  · intro rest hev
    rw [hrun, hev, session_loop_escape draw cache screen.width_in_pixels
      screen.height_in_pixels conn.escape_keycode_raw
      conn.return_keycode_raw conn.loop_pointer_reply (ensure_odd_nat pw)
      scale rest]
  · intro hev
    rw [hrun, hev]
    rfl

/-- Witness for C1: on the concrete 2 × 2 session, a primary-button press
at `(1, 0)` picks cache pixel `20`, an Escape press cancels, and an empty
stream cancels. -/
theorem C1_session_outcomes_witness :
    (wait_for_location dummy_draw
        (witness_conn [XEvent.buttonPress SELECTION_BUTTON 1 0])
        witness_screen 1 1).1 = Outcome.ok (some 20) ∧
    (wait_for_location dummy_draw (witness_conn [XEvent.keyPress 9])
        witness_screen 1 1).1 = Outcome.ok none ∧
    (wait_for_location dummy_draw (witness_conn []) witness_screen 1 1).1 =
      Outcome.ok none := by
  refine ⟨?_, ?_, ?_⟩
  · exact (C1_session_outcomes dummy_draw
      (witness_conn [XEvent.buttonPress SELECTION_BUTTON 1 0])
      witness_screen 1 1 [10, 20, 30, 40] 33 (0, 0) (by decide) (by decide)
      rfl rfl (by decide) rfl rfl (by decide) (by decide) (by decide)
      (by decide) (by decide)).1 1 0 [] rfl
  · exact (C1_session_outcomes dummy_draw (witness_conn [XEvent.keyPress 9])
      witness_screen 1 1 [10, 20, 30, 40] 33 (0, 0) (by decide) (by decide)
      rfl rfl (by decide) rfl rfl (by decide) (by decide) (by decide)
      (by decide) (by decide)).2.1 [] rfl
  · exact (C1_session_outcomes dummy_draw (witness_conn [])
      witness_screen 1 1 [10, 20, 30, 40] 33 (0, 0) (by decide) (by decide)
      rfl rfl (by decide) rfl rfl (by decide) (by decide) (by decide)
      (by decide) (by decide)).2.2 rfl

/-- C2 counterexample: a run that enters the event loop (the keyboard grab
request is in the trace) and receives a confirm key whose pointer query
fails returns the error directly — the teardown requests (unmap, destroy,
ungrab) are missing from the trace, so the teardown sequence is not
executed on this exit path. -/
theorem C2_counterexample :
    (wait_for_location dummy_draw confirm_query_failure_conn
        witness_screen 1 1).1 = Outcome.err "protocol request failed" ∧
    Action.grabKeyboard ∈ (wait_for_location dummy_draw
      confirm_query_failure_conn witness_screen 1 1).2 ∧
    Action.unmapWindow ∉ (wait_for_location dummy_draw
      confirm_query_failure_conn witness_screen 1 1).2 ∧
    Action.ungrabPointer ∉ (wait_for_location dummy_draw
      confirm_query_failure_conn witness_screen 1 1).2 := by
  decide

/-- C2 (amended): the teardown sequence is executed on every exit path of
the event loop that returns normally (button selection, Escape, confirm
with successful query, event-stream termination) — but not on the path
where the confirm-key pointer query fails, where the error propagates
immediately without teardown. -/
theorem C2_teardown_on_normal_exit
    (draw : List Nat → List ARGB → Nat → Nat → List Nat)
    (conn : Conn) (screen : Screen) (pw scale : Nat) :
    ∀ r : Option ARGB,
      (wait_for_location draw conn screen pw scale).1 = Outcome.ok r →
      List.IsSuffix cleanup_actions
        (wait_for_location draw conn screen pw scale).2 := by
  simp only [wait_for_location]
  split
  · intro r h
    simp at h
  split
  · intro r h
    simp at h
  split
  · intro r h
    simp at h
  split
  · intro r h
    simp at h
  split
  · intro r h
    simp at h
  split
  · intro r h
    simp at h
  split
  · intro r h
    simp at h
  split
  · intro r h
    simp at h
  split
  · intro r h
    exact ⟨_, rfl⟩
  · intro r h
    rename_i hne
    exact absurd h (hne r)

/-- Witness for C2 (amended): the concrete cancelled session ends with the
full teardown sequence at the end of its trace. -/
theorem C2_teardown_witness :
    List.IsSuffix cleanup_actions
      (wait_for_location dummy_draw (witness_conn [XEvent.keyPress 9])
        witness_screen 1 1).2 :=
  C2_teardown_on_normal_exit dummy_draw (witness_conn [XEvent.keyPress 9])
    witness_screen 1 1 none (by decide)

/-- C5 counterexample: motion coordinates are not clamped to
`[0, dimension-1]` before the cache is read.  On a 3 × 3 snapshot, the
motion-path render (probed to return the square it extracted) at the
off-screen pointer `(-5, 1)` differs from the render at the clamped
pointer `(0, 1)` — the off-screen motion produces transparent padding,
not a lookup at the nearest valid pixel as the claim states. -/
theorem C5_counterexample :
    clamp_coord (-5) 3 = 0 ∧ clamp_coord 1 3 = 1 ∧
    render_magnifier_from_cache probe_draw_src
      [11,12,13,21,22,23,31,32,33] 3 3 (-5, 1) 3 1 ≠
    render_magnifier_from_cache probe_draw_src
      [11,12,13,21,22,23,31,32,33] 3 3 (0, 1) 3 1 := by
  decide

/-- Witness for C5 (amended): a concrete session fed wildly off-screen
motion and button coordinates neither panics nor reads out of bounds. -/
theorem C5_no_out_of_bounds_witness :
    (wait_for_location dummy_draw
        (witness_conn [XEvent.motionNotify (-100) 999,
          XEvent.buttonPress SELECTION_BUTTON 50 (-50)])
        witness_screen 1 1).1 ≠ Outcome.panic :=
  C5_no_out_of_bounds_access dummy_draw
    (witness_conn [XEvent.motionNotify (-100) 999,
      XEvent.buttonPress SELECTION_BUTTON 50 (-50)])
    witness_screen 1 1 (by decide) (by decide)
    (by
      intro cache hc
      injection hc with h
      subst h
      decide)
    (by decide) (by decide)

/-- C8: in every run of `wait_for_location`, the trace restricted to
screen captures and overlay-window creations is a prefix of
`[getImage, createWindow]` — the capture capability is invoked at most
once, any invocation precedes the window creation, and no capture happens
during the event loop; in every run that completes with `Ok`, the capture
happened exactly once, strictly before the window was created. -/
theorem C8_single_capture_before_window
    (draw : List Nat → List ARGB → Nat → Nat → List Nat)
    (conn : Conn) (screen : Screen) (pw scale : Nat) :
    List.IsPrefix
      ((wait_for_location draw conn screen pw scale).2.filter
        capture_or_create)
      [Action.getImage, Action.createWindow] ∧
    ∀ r : Option ARGB,
      (wait_for_location draw conn screen pw scale).1 = Outcome.ok r →
      (wait_for_location draw conn screen pw scale).2.filter
        capture_or_create = [Action.getImage, Action.createWindow] := by
  constructor
  · simp only [wait_for_location]
    split
    · exact ⟨_, rfl⟩
    split
    · exact ⟨_, rfl⟩
    split
    · exact ⟨_, rfl⟩
    split
    · exact ⟨_, rfl⟩
    split
    · exact ⟨_, rfl⟩
    split
    · exact ⟨_, rfl⟩
    split
    · exact ⟨_, rfl⟩
    split
    · exact ⟨_, rfl⟩
    split
    · rw [List.filter_append, List.filter_append, session_loop_no_capture]
      exact ⟨_, rfl⟩
    · rw [List.filter_append, session_loop_no_capture]
      exact ⟨_, rfl⟩
  · simp only [wait_for_location]
    split
    · intro r h
      simp at h
    split
    · intro r h
      simp at h
    split
    · intro r h
      simp at h
    split
    · intro r h
      simp at h
    split
    · intro r h
      simp at h
    split
    · intro r h
      simp at h
    split
    · intro r h
      simp at h
    split
    · intro r h
      simp at h
    split
    · intro r h
      rw [List.filter_append, List.filter_append, session_loop_no_capture]
      decide
    · intro r h
      rename_i hne
      exact absurd h (hne r)

/-- Witness for C8: the concrete completed session captured the screen
exactly once, before creating the overlay window. -/
theorem C8_single_capture_witness :
    (wait_for_location dummy_draw (witness_conn [XEvent.keyPress 9])
        witness_screen 1 1).2.filter capture_or_create =
      [Action.getImage, Action.createWindow] :=
  (C8_single_capture_before_window dummy_draw
    (witness_conn [XEvent.keyPress 9]) witness_screen 1 1).2 none
    (by decide)

/-- C10: `wait_for_location` resolves the Escape and Return keycodes
before allocating any server-side resource or acquiring any grab, so a
keycode-resolution failure returns an error with an empty request trace —
no cursor, window, colormap, graphics context, or grab was created. -/
theorem C10_keycode_failure_allocates_nothing
    (draw : List Nat → List ARGB → Nat → Nat → List Nat)
    (conn : Conn) (screen : Screen) (pw scale : Nat)
    (h : conn.escape_keycode_raw = 0 ∨ conn.return_keycode_raw = 0) :
    (wait_for_location draw conn screen pw scale).2 = [] ∧
    ∃ e, (wait_for_location draw conn screen pw scale).1 =
      Outcome.err e := by
  by_cases h1 : conn.escape_keycode_raw = 0
  · constructor
    · simp [wait_for_location, escape_keycode, h1]
    · exact ⟨"Could not resolve the Escape keycode",
        by simp [wait_for_location, escape_keycode, h1]⟩
  · have h2 : conn.return_keycode_raw = 0 := by tauto
    constructor
    · simp [wait_for_location, escape_keycode, return_keycode, h1, h2]
    · exact ⟨"Could not resolve the Return keycode",
        by simp [wait_for_location, escape_keycode, return_keycode, h1, h2]⟩

/-- Witness for C10: a concrete connection whose Escape keysym resolves to
keycode 0 makes the session fail with an empty request trace. -/
theorem C10_keycode_failure_witness :
    (wait_for_location dummy_draw
        { witness_conn [] with escape_keycode_raw := 0 }
        witness_screen 1 1).2 = [] ∧
    ∃ e, (wait_for_location dummy_draw
        { witness_conn [] with escape_keycode_raw := 0 }
        witness_screen 1 1).1 = Outcome.err e :=
  C10_keycode_failure_allocates_nothing dummy_draw
    { witness_conn [] with escape_keycode_raw := 0 } witness_screen 1 1
    (Or.inl rfl)

/-- Witness for C3: the full 3 × 3 snapshot extracted around its center
pixel is copied exactly. -/
theorem C3_full_square_witness :
    ∃ buf, get_rect_from_cache [11,12,13,21,22,23,31,32,33] 3 3 (1, 1)
        3 1 = some (ensure_odd_nat (3 / 1), buf) ∧
      buf.length = ensure_odd_nat (3 / 1) * ensure_odd_nat (3 / 1) ∧
      ∀ i j : Nat, i < ensure_odd_nat (3 / 1) → j < ensure_odd_nat (3 / 1) →
        buf[j * ensure_odd_nat (3 / 1) + i]? =
          [11,12,13,21,22,23,31,32,33][(((1 : Int) -
            snapshot_square_side 3 1 / 2 + (j : Int)) * (3 : Int) +
            ((1 : Int) - snapshot_square_side 3 1 / 2 +
              (i : Int))).toNat]? :=
  C3_full_square_exact_copy [11,12,13,21,22,23,31,32,33] 3 3 1 1 3 1
    (by decide) (by decide) (by decide) (by decide) (by decide) (by decide)

/-- Witness for C4 (amended): a pointer on the left edge of a 5 × 5
snapshot gets cache pixels at in-bounds positions and transparent padding
at out-of-bounds positions. -/
theorem C4_edge_padding_witness :
    ∃ buf, get_rect_from_cache (List.replicate 25 8) 5 5 (0, 2) 3 1 =
        some (ensure_odd_nat (3 / 1), buf) ∧
      buf.length = ensure_odd_nat (3 / 1) * ensure_odd_nat (3 / 1) ∧
      ∀ i j : Nat, i < ensure_odd_nat (3 / 1) → j < ensure_odd_nat (3 / 1) →
        ((0 ≤ (0 : Int) - snapshot_square_side 3 1 / 2 + (i : Int) ∧
          (0 : Int) - snapshot_square_side 3 1 / 2 + (i : Int) <
            ((5 : Nat) : Int) ∧
          0 ≤ (2 : Int) - snapshot_square_side 3 1 / 2 + (j : Int) ∧
          (2 : Int) - snapshot_square_side 3 1 / 2 + (j : Int) <
            ((5 : Nat) : Int)) →
          buf[j * ensure_odd_nat (3 / 1) + i]? =
            (List.replicate 25 8)[(((2 : Int) -
              snapshot_square_side 3 1 / 2 + (j : Int)) * ((5 : Nat) : Int) +
              ((0 : Int) - snapshot_square_side 3 1 / 2 +
                (i : Int))).toNat]?) ∧
        (¬(0 ≤ (0 : Int) - snapshot_square_side 3 1 / 2 + (i : Int) ∧
          (0 : Int) - snapshot_square_side 3 1 / 2 + (i : Int) <
            ((5 : Nat) : Int) ∧
          0 ≤ (2 : Int) - snapshot_square_side 3 1 / 2 + (j : Int) ∧
          (2 : Int) - snapshot_square_side 3 1 / 2 + (j : Int) <
            ((5 : Nat) : Int)) →
          buf[j * ensure_odd_nat (3 / 1) + i]? =
            some ARGB.TRANSPARENT) :=
  C4_edge_padding (List.replicate 25 8) 5 5 0 2 3 1 (by decide) (by decide)
    (by decide) (by decide) (Or.inl (by decide)) (by decide) (by decide)

/-- Witness for C6 (amended): a centered pointer on a 4 × 4 snapshot with
`preview_width = 3`, `scale = 1` yields the odd side 3 and 9 pixels. -/
theorem C6_side_and_length_witness :
    ∃ buf, get_rect_from_cache (List.replicate 16 5) 4 4 (2, 2) 3 1 =
        some (ensure_odd_nat (3 / 1), buf) ∧
      Odd (ensure_odd_nat (3 / 1)) ∧
      buf.length = ensure_odd_nat (3 / 1) * ensure_odd_nat (3 / 1) :=
  C6_side_and_length (List.replicate 16 5) 4 4 2 2 3 1 (by decide)
    (by decide) (by decide) (by decide) (by decide) (by decide)

/-- Witness for C9: a pointer far off-screen on a 3 × 3 snapshot is safe
and the extraction succeeds. -/
theorem C9_off_screen_witness :
    ∃ buf, get_rect_from_cache (List.replicate 9 4) 3 3 (-100, -100) 3 1 =
        some (ensure_odd_nat (3 / 1), buf) ∧
      buf.length = ensure_odd_nat (3 / 1) * ensure_odd_nat (3 / 1) ∧
      (((-100 : Int) - snapshot_square_side 3 1 / 2 +
          snapshot_square_side 3 1 ≤ 0 ∨
        ((3 : Nat) : Int) ≤ (-100 : Int) - snapshot_square_side 3 1 / 2 ∨
        (-100 : Int) - snapshot_square_side 3 1 / 2 +
          snapshot_square_side 3 1 ≤ 0 ∨
        ((3 : Nat) : Int) ≤ (-100 : Int) - snapshot_square_side 3 1 / 2) →
        buf = List.replicate
          (ensure_odd_nat (3 / 1) * ensure_odd_nat (3 / 1))
          ARGB.TRANSPARENT) :=
  C9_off_screen_safety (List.replicate 9 4) 3 3 (-100) (-100) 3 1
    (by decide) (by decide) (by decide) (by decide)

/-- Witness for C7: at ratio `101 / 25 = 4` the factor is odd, exceeds
the ratio, and is at most the concrete odd bound 5 — so it equals 5. -/
theorem C7_pixel_size_witness :
    Odd (magnifier_pixel_size 101 25) ∧
    101 / 25 < magnifier_pixel_size 101 25 ∧
    magnifier_pixel_size 101 25 ≤ 5 :=
  ⟨(C7_pixel_size.1 101 25).1, (C7_pixel_size.1 101 25).2.1,
    (C7_pixel_size.1 101 25).2.2 5 (by decide) (by decide)⟩

end XColor
